import Mathlib

/-!
Verification of the mini-golf physics core (`src/scene/Canvas3D.jsx`).

The JavaScript code mutates `THREE.Vector3` values in place; here every
operation is embedded as a pure function over a `Vec3` record of real
numbers, and each stateful frame of the `animate` loop becomes an explicit
state-passing step function.  Line numbers in doc comments refer to
`src/scene/Canvas3D.jsx`.
-/

namespace MiniGolf

/-- A 3-component vector, the embedding of `THREE.Vector3`. -/
structure Vec3 where
  x : ℝ
  y : ℝ
  z : ℝ

namespace Vec3

instance : Add Vec3 := ⟨fun a b => ⟨a.x + b.x, a.y + b.y, a.z + b.z⟩⟩

instance : Sub Vec3 := ⟨fun a b => ⟨a.x - b.x, a.y - b.y, a.z - b.z⟩⟩

instance : SMul ℝ Vec3 := ⟨fun c v => ⟨c * v.x, c * v.y, c * v.z⟩⟩

@[simp] theorem add_x (a b : Vec3) : (a + b).x = a.x + b.x := rfl

@[simp] theorem add_y (a b : Vec3) : (a + b).y = a.y + b.y := rfl

@[simp] theorem add_z (a b : Vec3) : (a + b).z = a.z + b.z := rfl

@[simp] theorem sub_x (a b : Vec3) : (a - b).x = a.x - b.x := rfl

@[simp] theorem sub_y (a b : Vec3) : (a - b).y = a.y - b.y := rfl

@[simp] theorem sub_z (a b : Vec3) : (a - b).z = a.z - b.z := rfl

@[simp] theorem smul_x (c : ℝ) (v : Vec3) : (c • v).x = c * v.x := rfl

@[simp] theorem smul_y (c : ℝ) (v : Vec3) : (c • v).y = c * v.y := rfl

@[simp] theorem smul_z (c : ℝ) (v : Vec3) : (c • v).z = c * v.z := rfl

@[ext] theorem ext {a b : Vec3} (hx : a.x = b.x) (hy : a.y = b.y) (hz : a.z = b.z) :
    a = b := by
  cases a; cases b; simp_all

theorem eq_iff {a b : Vec3} : a = b ↔ a.x = b.x ∧ a.y = b.y ∧ a.z = b.z := by
  constructor
  · rintro rfl; exact ⟨rfl, rfl, rfl⟩
  · rintro ⟨hx, hy, hz⟩; exact ext hx hy hz

end Vec3

/-- `THREE.Vector3.lengthSq`: squared euclidean length. -/
def lengthSq (v : Vec3) : ℝ := v.x ^ 2 + v.y ^ 2 + v.z ^ 2

/-- `THREE.Vector3.length`. -/
noncomputable def length (v : Vec3) : ℝ := Real.sqrt (lengthSq v)

/-- `THREE.Vector3.distanceTo` — the full 3D distance, including the
`y` components. -/
noncomputable def dist3 (a b : Vec3) : ℝ := length (a - b)

/-- `THREE.Vector3.normalize`: `divideScalar(length() || 1)`, so the zero
vector is left unchanged. -/
noncomputable def normalize (v : Vec3) : Vec3 :=
  (1 / (if length v = 0 then 1 else length v)) • v

/-- `THREE.Vector3.setLength l`: `normalize().multiplyScalar(l)`. -/
noncomputable def setLength (v : Vec3) (l : ℝ) : Vec3 := l • normalize v

theorem lengthSq_nonneg (v : Vec3) : 0 ≤ lengthSq v := by
  have hx := sq_nonneg v.x
  have hy := sq_nonneg v.y
  have hz := sq_nonneg v.z
  unfold lengthSq; linarith

theorem length_nonneg (v : Vec3) : 0 ≤ length v := Real.sqrt_nonneg _

theorem length_eq_of_sq {v : Vec3} {l : ℝ} (hl : 0 ≤ l) (h : lengthSq v = l * l) :
    length v = l := by
  rw [length, h, Real.sqrt_mul_self hl]

theorem length_eq_zero_iff {v : Vec3} : length v = 0 ↔ lengthSq v = 0 := by
  rw [length, Real.sqrt_eq_zero' ]
  constructor
  · intro h; exact le_antisymm h (lengthSq_nonneg v)
  · intro h; exact le_of_eq h

theorem lengthSq_eq_zero_iff {v : Vec3} : lengthSq v = 0 ↔ v = ⟨0, 0, 0⟩ := by
  constructor
  · intro h
    have hx := sq_nonneg v.x
    have hy := sq_nonneg v.y
    have hz := sq_nonneg v.z
    have hx0 : v.x ^ 2 = 0 := by unfold lengthSq at h; linarith
    have hy0 : v.y ^ 2 = 0 := by unfold lengthSq at h; linarith
    have hz0 : v.z ^ 2 = 0 := by unfold lengthSq at h; linarith
    exact Vec3.ext (pow_eq_zero_iff two_ne_zero |>.mp hx0)
      (pow_eq_zero_iff two_ne_zero |>.mp hy0)
      (pow_eq_zero_iff two_ne_zero |>.mp hz0)
  · rintro rfl; simp [lengthSq]

theorem length_pos_of_ne {v : Vec3} (h : v ≠ ⟨0, 0, 0⟩) : 0 < length v := by
  rw [length, Real.sqrt_pos]
  rcases lt_or_eq_of_le (lengthSq_nonneg v) with h' | h'
  · exact h'
  · exact absurd (lengthSq_eq_zero_iff.mp h'.symm) h

theorem lengthSq_smul (c : ℝ) (v : Vec3) : lengthSq (c • v) = c ^ 2 * lengthSq v := by
  unfold lengthSq
  simp [mul_pow]
  ring

theorem length_smul (c : ℝ) (v : Vec3) : length (c • v) = |c| * length v := by
  rw [length, lengthSq_smul, Real.sqrt_mul (sq_nonneg c), Real.sqrt_sq_eq_abs, length]

theorem setLength_of_length {v : Vec3} {L : ℝ} (h : length v = L) (hL : L ≠ 0)
    (l : ℝ) : setLength v l = (l / L) • v := by
  rw [setLength, normalize, h, if_neg hL]
  ext <;> simp <;> ring

theorem length_setLength {v : Vec3} (hv : v ≠ ⟨0, 0, 0⟩) {l : ℝ} (hl : 0 ≤ l) :
    length (setLength v l) = l := by
  have hL : 0 < length v := length_pos_of_ne hv
  rw [setLength_of_length rfl (ne_of_gt hL) l, length_smul, abs_of_nonneg
    (div_nonneg hl (le_of_lt hL))]
  field_simp

theorem setLength_smul_of_length {v : Vec3} {L : ℝ} (h : length v = L) (hL : L ≠ 0)
    (l : ℝ) : ∃ c : ℝ, c = l / L ∧ setLength v l = c • v :=
  ⟨l / L, rfl, setLength_of_length h hL l⟩

/-! ## Constants (lines 51-54) -/

/-- `BALL_RADIUS` (line 51). -/
def BALL_RADIUS : ℝ := 0.6

/-- `HOLE_RADIUS = BALL_RADIUS * 2` (line 52). -/
def HOLE_RADIUS : ℝ := BALL_RADIUS * 2

/-- `COURSE_SIZE` (line 53). -/
def COURSE_SIZE : ℝ := 22

/-- `COURSE_LIMIT = COURSE_SIZE / 2 - 0.6` (line 54). -/
noncomputable def COURSE_LIMIT : ℝ := COURSE_SIZE / 2 - 0.6

/-! ## Water friction (lines 675-689) -/

/-- A water obstacle as registered at line 375: `center` is the pond mesh
position, `radius` its circle radius. -/
structure Water where
  center : Vec3
  radius : ℝ

/-- The water obstacles per level: level 4 has the single pond at
`(-4, 0.02, -4)` with radius 3.6 (lines 366-375); no other level has any. -/
def levelWaters (lvl : ℕ) : List Water :=
  if lvl = 4 then [⟨⟨-4, 0.02, -4⟩, 3.6⟩] else []

open Classical in
/-- Friction selection, lines 675-689: `localFriction` starts at 1.5 and,
on level 4 only, is set to 4.0 when the ball's `distanceTo` (a full 3D
distance) some water obstacle's center is strictly less than its radius.
Recomputed from scratch on every frame. -/
noncomputable def frictionAt (lvl : ℕ) (ballPos : Vec3) : ℝ :=
  if lvl = 4 ∧ ∃ w ∈ levelWaters lvl, dist3 ballPos w.center < w.radius then 4.0
  else 1.5

/-! ## Motion integrator (lines 691-718) -/

open Classical in
/-- The friction-decay velocity update of lines 693-697 in isolation
(`speed`, `newSpeed = max(0, speed - friction*dt)`, `setLength`), with the
same stationary-skip guard `lengthSq > 1e-6`. -/
noncomputable def velStep (friction dt : ℝ) (v : Vec3) : Vec3 :=
  if lengthSq v > 1e-6 then setLength v (max 0 (length v - friction * dt)) else v

open Classical in
/-- One integration step, lines 691-718: when `vel.lengthSq() > 1e-6`,
decay the speed, rescale the velocity, advance the position by
`addScaledVector(vel, dt)` using the already-rescaled velocity, then apply
the four sequential wall-clamp `if`s (x low, x high, z low, z high), each
of which snaps the coordinate to `±COURSE_LIMIT` and multiplies that
velocity component by `-0.8`.  When the guard fails nothing at all
happens (the wall clamps are inside the guard). -/
noncomputable def integrate (friction dt : ℝ) (pos vel : Vec3) : Vec3 × Vec3 :=
  if lengthSq vel > 1e-6 then
    let speed := length vel
    let newSpeed := max 0 (speed - friction * dt)
    let vel1 := setLength vel newSpeed
    let pos1 := pos + dt • vel1
    let qx : ℝ × ℝ :=
      if pos1.x < -COURSE_LIMIT then (-COURSE_LIMIT, vel1.x * (-0.8)) else (pos1.x, vel1.x)
    let qx2 : ℝ × ℝ :=
      if qx.1 > COURSE_LIMIT then (COURSE_LIMIT, qx.2 * (-0.8)) else qx
    let qz : ℝ × ℝ :=
      if pos1.z < -COURSE_LIMIT then (-COURSE_LIMIT, vel1.z * (-0.8)) else (pos1.z, vel1.z)
    let qz2 : ℝ × ℝ :=
      if qz.1 > COURSE_LIMIT then (COURSE_LIMIT, qz.2 * (-0.8)) else qz
    (⟨qx2.1, pos1.y, qz2.1⟩, ⟨qx2.2, vel1.y, qz2.2⟩)
  else (pos, vel)

theorem integrate_skip {friction dt : ℝ} {pos vel : Vec3}
    (h : ¬lengthSq vel > 1e-6) : integrate friction dt pos vel = (pos, vel) := by
  rw [integrate, if_neg h]

theorem velStep_skip {friction dt : ℝ} {v : Vec3}
    (h : ¬lengthSq v > 1e-6) : velStep friction dt v = v := by
  rw [velStep, if_neg h]

/-- In the moving branch, the velocity result of `integrate` agrees with
`velStep` on each unclamped axis, and the position advances by
`dt • velStep`.  When neither x nor z gets clamped this gives the full
characterization used below. -/
theorem integrate_noClamp {friction dt : ℝ} {pos vel : Vec3}
    (h : lengthSq vel > 1e-6)
    (hx1 : ¬(pos + dt • velStep friction dt vel).x < -COURSE_LIMIT)
    (hx2 : ¬(pos + dt • velStep friction dt vel).x > COURSE_LIMIT)
    (hz1 : ¬(pos + dt • velStep friction dt vel).z < -COURSE_LIMIT)
    (hz2 : ¬(pos + dt • velStep friction dt vel).z > COURSE_LIMIT) :
    integrate friction dt pos vel =
      (pos + dt • velStep friction dt vel, velStep friction dt vel) := by
  rw [integrate, if_pos h]
  rw [velStep, if_pos h] at hx1 hx2 hz1 hz2 ⊢
  simp only [if_neg hx1, if_neg hx2, if_neg hz1, if_neg hz2]

theorem COURSE_LIMIT_eq : COURSE_LIMIT = 10.4 := by
  norm_num [COURSE_LIMIT, COURSE_SIZE]

theorem COURSE_LIMIT_pos : 0 < COURSE_LIMIT := by
  rw [COURSE_LIMIT_eq]; norm_num

/-- Claim C2, counterexample: with a stationary ball (`lengthSq = 0`, below
the `1e-6` guard) the whole integration block — wall clamps included — is
skipped, so a pre-step out-of-range position survives the step untouched:
from `x = 11 > COURSE_LIMIT` the step returns `x = 11`. -/
theorem ball_in_bounds_counterexample :
    integrate 1.5 0.1 ⟨11, 0.6, 0⟩ ⟨0, 0, 0⟩ = (⟨11, 0.6, 0⟩, ⟨0, 0, 0⟩) ∧
    COURSE_LIMIT < (integrate 1.5 0.1 ⟨11, 0.6, 0⟩ ⟨0, 0, 0⟩).1.x := by
  have h : integrate 1.5 0.1 ⟨11, 0.6, 0⟩ ⟨0, 0, 0⟩ = (⟨11, 0.6, 0⟩, ⟨0, 0, 0⟩) :=
    integrate_skip (by norm_num [lengthSq])
  refine ⟨h, ?_⟩
  rw [h, COURSE_LIMIT_eq]
  norm_num

/-- Claim C2, amended: when the pre-step velocity is above the stationary
guard (`lengthSq > 1e-6`), the post-step x and z position components do lie
in `[-COURSE_LIMIT, COURSE_LIMIT]` for any pre-step position and velocity;
when the guard fails, position and velocity are returned unchanged (so
out-of-range pre-step components persist).  The y component is never
clamped by this step. -/
theorem ball_xz_clamped :
    (∀ friction dt : ℝ, ∀ pos vel : Vec3, 1e-6 < lengthSq vel →
      -COURSE_LIMIT ≤ (integrate friction dt pos vel).1.x ∧
      (integrate friction dt pos vel).1.x ≤ COURSE_LIMIT ∧
      -COURSE_LIMIT ≤ (integrate friction dt pos vel).1.z ∧
      (integrate friction dt pos vel).1.z ≤ COURSE_LIMIT) ∧
    (∀ friction dt : ℝ, ∀ pos vel : Vec3, ¬1e-6 < lengthSq vel →
      integrate friction dt pos vel = (pos, vel)) := by
  constructor
  · intro friction dt pos vel h
    have hCL := COURSE_LIMIT_pos
    unfold integrate
    rw [if_pos h]
    simp only
    split_ifs <;> simp_all <;> linarith
  · intro friction dt pos vel h
    exact integrate_skip h

/-- Witness for `ball_xz_clamped` at a concrete moving input. -/
theorem ball_xz_clamped_witness :
    (1e-6 < lengthSq ⟨5, 0, 0⟩ ∧
      -COURSE_LIMIT ≤ (integrate 1.5 0.1 ⟨0, 0.6, 0⟩ ⟨5, 0, 0⟩).1.x ∧
      (integrate 1.5 0.1 ⟨0, 0.6, 0⟩ ⟨5, 0, 0⟩).1.x ≤ COURSE_LIMIT ∧
      -COURSE_LIMIT ≤ (integrate 1.5 0.1 ⟨0, 0.6, 0⟩ ⟨5, 0, 0⟩).1.z ∧
      (integrate 1.5 0.1 ⟨0, 0.6, 0⟩ ⟨5, 0, 0⟩).1.z ≤ COURSE_LIMIT) ∧
    (¬1e-6 < lengthSq ⟨0, 0, 0⟩ ∧
      integrate 1.5 0.1 ⟨2, 0.6, 3⟩ ⟨0, 0, 0⟩ = (⟨2, 0.6, 3⟩, ⟨0, 0, 0⟩)) := by
  constructor
  · have h : (1e-6 : ℝ) < lengthSq ⟨5, 0, 0⟩ := by norm_num [lengthSq]
    exact ⟨h, ball_xz_clamped.1 1.5 0.1 ⟨0, 0.6, 0⟩ ⟨5, 0, 0⟩ h⟩
  · have h : ¬(1e-6 : ℝ) < lengthSq ⟨0, 0, 0⟩ := by norm_num [lengthSq]
    exact ⟨h, ball_xz_clamped.2 1.5 0.1 ⟨2, 0.6, 3⟩ ⟨0, 0, 0⟩ h⟩

theorem velStep_moving {friction dt : ℝ} {v : Vec3} (h : lengthSq v > 1e-6) :
    velStep friction dt v = setLength v (max 0 (length v - friction * dt)) := by
  rw [velStep, if_pos h]

theorem ne_zero_of_lengthSq_gt {v : Vec3} (h : lengthSq v > 1e-6) : v ≠ ⟨0, 0, 0⟩ := by
  intro hv
  rw [hv] at h
  norm_num [lengthSq] at h

/-- Concrete evaluation of `velStep` given the (exact) length of the input. -/
theorem velStep_eval {friction dt : ℝ} {v : Vec3} {L l : ℝ}
    (hL : length v = L) (hL0 : L ≠ 0) (hg : lengthSq v > 1e-6)
    (hl : max 0 (L - friction * dt) = l) :
    velStep friction dt v = (l / L) • v := by
  rw [velStep_moving hg, setLength_of_length hL hL0, hL, hl]

theorem length_velStep_moving {friction dt : ℝ} {v : Vec3} (h : lengthSq v > 1e-6) :
    length (velStep friction dt v) = max 0 (length v - friction * dt) := by
  rw [velStep_moving h]
  exact length_setLength (ne_zero_of_lengthSq_gt h) (le_max_left _ _)

/-- Claim C3, counterexample: at squared speed exactly `1e-6` (the
"stationary epsilon") the guard `lengthSq > 1e-6` is false, so the step is
skipped entirely: the velocity keeps speed `0.001` instead of being
rescaled to `max(0, 0.001 - f·dt) = 0`. -/
theorem integration_epsilon_boundary_counterexample :
    lengthSq ⟨0.001, 0, 0⟩ = 1e-6 ∧
    integrate 1.5 0.1 ⟨0, 0, 0⟩ ⟨0.001, 0, 0⟩ = (⟨0, 0, 0⟩, ⟨0.001, 0, 0⟩) ∧
    length (integrate 1.5 0.1 ⟨0, 0, 0⟩ ⟨0.001, 0, 0⟩).2 ≠
      max 0 (length ⟨(0.001 : ℝ), 0, 0⟩ - 1.5 * 0.1) := by
  have hsk : integrate 1.5 0.1 ⟨0, 0, 0⟩ ⟨0.001, 0, 0⟩ = (⟨0, 0, 0⟩, ⟨0.001, 0, 0⟩) :=
    integrate_skip (by norm_num [lengthSq])
  have hlen : length ⟨(0.001 : ℝ), 0, 0⟩ = 0.001 :=
    length_eq_of_sq (by norm_num) (by norm_num [lengthSq])
  refine ⟨by norm_num [lengthSq], hsk, ?_⟩
  rw [hsk, hlen]
  norm_num

/-- Claim C3, amended (the rule applies when `lengthSq` is strictly above
the epsilon, not at it): under the guard the new speed is
`max(0, |v| - f·dt)`, the new velocity is a nonnegative multiple of the
old one (direction preserved), and — absent wall clamping — the position
advances by `dt` times the new velocity.  The concrete scenario of the
claim holds exactly: from the origin with velocity `(5,0,0)`, friction
`1.5`, `dt = 0.1`, one step gives speed `4.85` and position
`(0.485, 0, 0)`. -/
theorem integration_step_formula :
    (∀ friction dt : ℝ, ∀ v : Vec3, 1e-6 < lengthSq v →
      length (velStep friction dt v) = max 0 (length v - friction * dt)) ∧
    (∀ friction dt : ℝ, ∀ v : Vec3, 1e-6 < lengthSq v →
      ∃ c : ℝ, 0 ≤ c ∧ velStep friction dt v = c • v) ∧
    (∀ friction dt : ℝ, ∀ p v : Vec3, 1e-6 < lengthSq v →
      ¬(p + dt • velStep friction dt v).x < -COURSE_LIMIT →
      ¬(p + dt • velStep friction dt v).x > COURSE_LIMIT →
      ¬(p + dt • velStep friction dt v).z < -COURSE_LIMIT →
      ¬(p + dt • velStep friction dt v).z > COURSE_LIMIT →
      integrate friction dt p v =
        (p + dt • velStep friction dt v, velStep friction dt v)) ∧
    integrate 1.5 0.1 ⟨0, 0, 0⟩ ⟨5, 0, 0⟩ = (⟨0.485, 0, 0⟩, ⟨4.85, 0, 0⟩) ∧
    length ⟨(4.85 : ℝ), 0, 0⟩ = 4.85 := by
  refine ⟨?_, ?_, ?_, ?_, ?_⟩
  · intro friction dt v h
    exact length_velStep_moving h
  · intro friction dt v h
    have hv := ne_zero_of_lengthSq_gt h
    have hL := length_pos_of_ne hv
    obtain ⟨c, hc, heq⟩ := setLength_smul_of_length rfl (ne_of_gt hL)
      (max 0 (length v - friction * dt))
    exact ⟨c, by rw [hc]; positivity, by rw [velStep_moving h, heq]⟩
  · intro friction dt p v h hx1 hx2 hz1 hz2
    exact integrate_noClamp h hx1 hx2 hz1 hz2
  · have hg : lengthSq (⟨5, 0, 0⟩ : Vec3) > 1e-6 := by norm_num [lengthSq]
    have hlen : length (⟨5, 0, 0⟩ : Vec3) = 5 :=
      length_eq_of_sq (by norm_num) (by norm_num [lengthSq])
    have hmax : max (0 : ℝ) (5 - 1.5 * 0.1) = 4.85 := by norm_num
    have hvs : velStep 1.5 0.1 ⟨5, 0, 0⟩ = ⟨4.85, 0, 0⟩ := by
      rw [velStep_eval hlen (by norm_num) hg hmax]
      ext <;> simp
    rw [integrate_noClamp hg] <;> rw [hvs] <;>
      simp [COURSE_LIMIT_eq] <;> norm_num
    ext <;> simp <;> norm_num
  · exact length_eq_of_sq (by norm_num) (by norm_num [lengthSq])

/-- Witness for `integration_step_formula` at velocity `(5,0,0)`,
friction `1.5`, `dt = 0.1`. -/
theorem integration_step_formula_witness :
    length (velStep 1.5 0.1 ⟨5, 0, 0⟩) = max 0 (length ⟨(5 : ℝ), 0, 0⟩ - 1.5 * 0.1) ∧
    (∃ c : ℝ, 0 ≤ c ∧ velStep 1.5 0.1 ⟨5, 0, 0⟩ = c • ⟨5, 0, 0⟩) ∧
    integrate 1.5 0.1 ⟨0, 0, 0⟩ ⟨5, 0, 0⟩ =
      (⟨0, 0, 0⟩ + (0.1 : ℝ) • velStep 1.5 0.1 ⟨5, 0, 0⟩, velStep 1.5 0.1 ⟨5, 0, 0⟩) := by
  have hg : (1e-6 : ℝ) < lengthSq ⟨5, 0, 0⟩ := by norm_num [lengthSq]
  have hlen : length (⟨5, 0, 0⟩ : Vec3) = 5 :=
    length_eq_of_sq (by norm_num) (by norm_num [lengthSq])
  have hmax : max (0 : ℝ) (5 - 1.5 * 0.1) = 4.85 := by norm_num
  have hvs : velStep 1.5 0.1 ⟨5, 0, 0⟩ = ⟨4.85, 0, 0⟩ := by
    rw [velStep_eval hlen (by norm_num) hg hmax]
    ext <;> simp
  refine ⟨integration_step_formula.1 1.5 0.1 _ hg,
    integration_step_formula.2.1 1.5 0.1 _ hg,
    integration_step_formula.2.2.1 1.5 0.1 ⟨0, 0, 0⟩ ⟨5, 0, 0⟩ hg ?_ ?_ ?_ ?_⟩ <;>
    rw [hvs] <;> simp [COURSE_LIMIT_eq] <;> norm_num

/-! ## Claim C5: speed decay -/

/-- Claim C5, counterexample: from speed `0.0005 > 0` with friction
`1.5 > 0` and `dt = 0.1`, the step leaves the velocity exactly unchanged
(its squared length `2.5e-7` is below the `1e-6` guard), so the speed
sequence is constant at `0.0005`: it is not monotonically decreasing and
never reaches 0. -/
theorem speed_decay_counterexample :
    0 < length ⟨0.0005, 0, 0⟩ ∧ (0 : ℝ) < 1.5 ∧
    velStep 1.5 0.1 ⟨0.0005, 0, 0⟩ = ⟨0.0005, 0, 0⟩ ∧
    length (velStep 1.5 0.1 ⟨0.0005, 0, 0⟩) = length ⟨(0.0005 : ℝ), 0, 0⟩ ∧
    length ⟨(0.0005 : ℝ), 0, 0⟩ ≠ 0 := by
  have hlen : length (⟨0.0005, 0, 0⟩ : Vec3) = 0.0005 :=
    length_eq_of_sq (by norm_num) (by norm_num [lengthSq])
  have hsk : velStep 1.5 0.1 ⟨0.0005, 0, 0⟩ = ⟨0.0005, 0, 0⟩ :=
    velStep_skip (by norm_num [lengthSq])
  refine ⟨?_, by norm_num, hsk, by rw [hsk], ?_⟩ <;> rw [hlen] <;> norm_num

/-- Claim C5, amended: the per-step speed is non-increasing (never
negative), strictly decreasing while the squared speed exceeds the `1e-6`
guard (given `0 < f·dt`), and snapped exactly to 0 in one step once
`f·dt` reaches the current speed; but once the squared speed falls to the
guard or below, the velocity is frozen at its current (possibly small
positive) value forever — it does not continue to 0. -/
theorem speed_decay_monotone :
    (∀ friction dt : ℝ, ∀ v : Vec3, 0 ≤ friction → 0 ≤ dt →
      length (velStep friction dt v) ≤ length v) ∧
    (∀ friction dt : ℝ, ∀ v : Vec3, 0 ≤ length (velStep friction dt v)) ∧
    (∀ friction dt : ℝ, ∀ v : Vec3, 1e-6 < lengthSq v → 0 < friction * dt →
      length (velStep friction dt v) < length v) ∧
    (∀ friction dt : ℝ, ∀ v : Vec3, 1e-6 < lengthSq v → length v ≤ friction * dt →
      length (velStep friction dt v) = 0) ∧
    (∀ friction dt : ℝ, ∀ v : Vec3, lengthSq v ≤ 1e-6 → velStep friction dt v = v) ∧
    (∀ friction dt : ℝ, ∀ p v : Vec3, 1e-6 < lengthSq v →
      ¬(p + dt • velStep friction dt v).x < -COURSE_LIMIT →
      ¬(p + dt • velStep friction dt v).x > COURSE_LIMIT →
      ¬(p + dt • velStep friction dt v).z < -COURSE_LIMIT →
      ¬(p + dt • velStep friction dt v).z > COURSE_LIMIT →
      (integrate friction dt p v).2 = velStep friction dt v) := by
  refine ⟨?_, ?_, ?_, ?_, ?_, ?_⟩
  · intro friction dt v hf hdt
    by_cases hg : lengthSq v > 1e-6
    · rw [length_velStep_moving hg]
      exact max_le (length_nonneg v) (by linarith [mul_nonneg hf hdt])
    · rw [velStep_skip hg]
  · intro friction dt v
    exact length_nonneg _
  · intro friction dt v hg hfd
    rw [length_velStep_moving hg]
    have hL : 0 < length v :=
      length_pos_of_ne (ne_zero_of_lengthSq_gt hg)
    exact max_lt hL (by linarith)
  · intro friction dt v hg hle
    rw [length_velStep_moving hg, max_eq_left (by linarith)]
  · intro friction dt v hle
    exact velStep_skip (by linarith)
  · intro friction dt p v hg hx1 hx2 hz1 hz2
    rw [integrate_noClamp hg hx1 hx2 hz1 hz2]

/-- Witness for `speed_decay_monotone`, at velocity `(5,0,0)`, friction
`1.5`, `dt = 0.1` (moving case) and at `(0.0004,0,0)` (frozen case). -/
theorem speed_decay_monotone_witness :
    ((0 : ℝ) ≤ 1.5 ∧ (0 : ℝ) ≤ 0.1 ∧
      length (velStep 1.5 0.1 ⟨5, 0, 0⟩) ≤ length ⟨(5 : ℝ), 0, 0⟩) ∧
    ((1e-6 : ℝ) < lengthSq ⟨5, 0, 0⟩ ∧ (0 : ℝ) < 1.5 * 0.1 ∧
      length (velStep 1.5 0.1 ⟨5, 0, 0⟩) < length ⟨(5 : ℝ), 0, 0⟩) ∧
    (length ⟨(5 : ℝ), 0, 0⟩ ≤ 1.5 * 4 ∧ length (velStep 1.5 4 ⟨5, 0, 0⟩) = 0) ∧
    (lengthSq ⟨0.0004, 0, 0⟩ ≤ 1e-6 ∧ velStep 1.5 0.1 ⟨0.0004, 0, 0⟩ = ⟨0.0004, 0, 0⟩) ∧
    (integrate 1.5 0.1 ⟨0, 0.6, 0⟩ ⟨5, 0, 0⟩).2 = velStep 1.5 0.1 ⟨5, 0, 0⟩ := by
  have hg : (1e-6 : ℝ) < lengthSq ⟨5, 0, 0⟩ := by norm_num [lengthSq]
  have hlen : length (⟨5, 0, 0⟩ : Vec3) = 5 :=
    length_eq_of_sq (by norm_num) (by norm_num [lengthSq])
  refine ⟨⟨by norm_num, by norm_num,
      speed_decay_monotone.1 1.5 0.1 ⟨5, 0, 0⟩ (by norm_num) (by norm_num)⟩,
    ⟨hg, by norm_num,
      speed_decay_monotone.2.2.1 1.5 0.1 ⟨5, 0, 0⟩ hg (by norm_num)⟩,
    ⟨by rw [hlen]; norm_num,
      speed_decay_monotone.2.2.2.1 1.5 4 ⟨5, 0, 0⟩ hg (by rw [hlen]; norm_num)⟩,
    ⟨by norm_num [lengthSq],
      speed_decay_monotone.2.2.2.2.1 1.5 0.1 ⟨0.0004, 0, 0⟩ (by norm_num [lengthSq])⟩, ?_⟩
  have hmax : max (0 : ℝ) (5 - 1.5 * 0.1) = 4.85 := by norm_num
  have hvs : velStep 1.5 0.1 ⟨5, 0, 0⟩ = ⟨4.85, 0, 0⟩ := by
    rw [velStep_eval hlen (by norm_num) hg hmax]
    ext <;> simp
  refine speed_decay_monotone.2.2.2.2.2 1.5 0.1 ⟨0, 0.6, 0⟩ ⟨5, 0, 0⟩ hg ?_ ?_ ?_ ?_ <;>
    rw [hvs] <;> simp [COURSE_LIMIT_eq] <;> norm_num

/-! ## Claim C4: wall bounce -/

/-- Outcome of the two sequential x-axis wall `if`s (lines 702-709). -/
theorem integrate_x_char (friction dt : ℝ) (p v : Vec3) (h : lengthSq v > 1e-6) :
    (integrate friction dt p v).1.x =
      (if (p + dt • velStep friction dt v).x < -COURSE_LIMIT then -COURSE_LIMIT
       else if (p + dt • velStep friction dt v).x > COURSE_LIMIT then COURSE_LIMIT
       else (p + dt • velStep friction dt v).x) ∧
    (integrate friction dt p v).2.x =
      (if (p + dt • velStep friction dt v).x < -COURSE_LIMIT then
        (velStep friction dt v).x * (-0.8)
       else if (p + dt • velStep friction dt v).x > COURSE_LIMIT then
        (velStep friction dt v).x * (-0.8)
       else (velStep friction dt v).x) := by
  have hCL := COURSE_LIMIT_pos
  have hv : setLength v (max 0 (length v - friction * dt)) = velStep friction dt v :=
    (velStep_moving h).symm
  unfold integrate
  rw [if_pos h]
  simp only [hv, Vec3.add_x, Vec3.smul_x]
  by_cases h1 : p.x + dt * (velStep friction dt v).x < -COURSE_LIMIT
  · have h2 : ¬COURSE_LIMIT < -COURSE_LIMIT := by linarith
    simp [h1, h2]
  · by_cases h2 : COURSE_LIMIT < p.x + dt * (velStep friction dt v).x
    · simp [h1, h2]
    · simp [h1, h2]

/-- Outcome of the two sequential z-axis wall `if`s (lines 710-717). -/
theorem integrate_z_char (friction dt : ℝ) (p v : Vec3) (h : lengthSq v > 1e-6) :
    (integrate friction dt p v).1.z =
      (if (p + dt • velStep friction dt v).z < -COURSE_LIMIT then -COURSE_LIMIT
       else if (p + dt • velStep friction dt v).z > COURSE_LIMIT then COURSE_LIMIT
       else (p + dt • velStep friction dt v).z) ∧
    (integrate friction dt p v).2.z =
      (if (p + dt • velStep friction dt v).z < -COURSE_LIMIT then
        (velStep friction dt v).z * (-0.8)
       else if (p + dt • velStep friction dt v).z > COURSE_LIMIT then
        (velStep friction dt v).z * (-0.8)
       else (velStep friction dt v).z) := by
  have hCL := COURSE_LIMIT_pos
  have hv : setLength v (max 0 (length v - friction * dt)) = velStep friction dt v :=
    (velStep_moving h).symm
  unfold integrate
  rw [if_pos h]
  simp only [hv, Vec3.add_z, Vec3.smul_z]
  by_cases h1 : p.z + dt * (velStep friction dt v).z < -COURSE_LIMIT
  · have h2 : ¬COURSE_LIMIT < -COURSE_LIMIT := by linarith
    simp [h1, h2]
  · by_cases h2 : COURSE_LIMIT < p.z + dt * (velStep friction dt v).z
    · simp [h1, h2]
    · simp [h1, h2]

/-- The y components are never touched by the wall logic (lines 700-718
clamp only x and z). -/
theorem integrate_y_char {friction dt : ℝ} {p v : Vec3} (h : lengthSq v > 1e-6) :
    (integrate friction dt p v).1.y = (p + dt • velStep friction dt v).y ∧
    (integrate friction dt p v).2.y = (velStep friction dt v).y := by
  have hv : setLength v (max 0 (length v - friction * dt)) = velStep friction dt v :=
    (velStep_moving h).symm
  unfold integrate
  rw [if_pos h]
  simp only [hv]
  exact ⟨trivial, trivial⟩

/-- Claim C4, counterexample: from `x = COURSE_LIMIT - 0.01` with velocity
`(2,0,0)`, friction `1.5`, `dt = 0.1`, the step crosses the boundary and
clamps `x` to the limit, but the resulting `v.x` is `-1.48`, not `-1.6`:
friction has already reduced the speed from 2 to 1.85 before the bounce
multiplies it by `-0.8`. -/
theorem wall_bounce_velocity_counterexample :
    (integrate 1.5 0.1 ⟨COURSE_LIMIT - 0.01, 0.6, 0⟩ ⟨2, 0, 0⟩).1.x = COURSE_LIMIT ∧
    (integrate 1.5 0.1 ⟨COURSE_LIMIT - 0.01, 0.6, 0⟩ ⟨2, 0, 0⟩).2.x = -1.48 ∧
    (-1.48 : ℝ) ≠ -1.6 := by
  have hg : (lengthSq ⟨2, 0, 0⟩ : ℝ) > 1e-6 := by norm_num [lengthSq]
  have hlen : length (⟨2, 0, 0⟩ : Vec3) = 2 :=
    length_eq_of_sq (by norm_num) (by norm_num [lengthSq])
  have hmax : max (0 : ℝ) (2 - 1.5 * 0.1) = 1.85 := by norm_num
  have hvs : velStep 1.5 0.1 ⟨2, 0, 0⟩ = ⟨1.85, 0, 0⟩ := by
    rw [velStep_eval hlen (by norm_num) hg hmax]
    ext <;> simp
  have hx := integrate_x_char 1.5 0.1 ⟨COURSE_LIMIT - 0.01, 0.6, 0⟩ ⟨2, 0, 0⟩ hg
  rw [hvs] at hx
  obtain ⟨hx1, hx2⟩ := hx
  have hcond1 : ¬((⟨COURSE_LIMIT - 0.01, 0.6, 0⟩ + (0.1 : ℝ) • (⟨1.85, 0, 0⟩ : Vec3)).x
      < -COURSE_LIMIT) := by
    simp [COURSE_LIMIT_eq]; norm_num
  have hcond2 : (⟨COURSE_LIMIT - 0.01, 0.6, 0⟩ + (0.1 : ℝ) • (⟨1.85, 0, 0⟩ : Vec3)).x
      > COURSE_LIMIT := by
    simp [COURSE_LIMIT_eq]; norm_num
  rw [hx1, hx2, if_neg hcond1, if_pos hcond2, if_neg hcond1, if_pos hcond2]
  norm_num

/-- Claim C4, amended: after translation each of x and z is independently
clamped to `[-COURSE_LIMIT, COURSE_LIMIT]`, and on the clamped axis the
velocity component is multiplied by `-0.8` — but the velocity component
entering the bounce is the post-friction one (`velStep`), so the concrete
scenario ends with `v.x = 1.85 · (-0.8) = -1.48` (for `dt = 0.1`,
friction `1.5`), not `-1.6`. -/
theorem wall_bounce_clamp :
    (∀ friction dt : ℝ, ∀ p v : Vec3, 1e-6 < lengthSq v →
      ((p + dt • velStep friction dt v).x > COURSE_LIMIT →
        (integrate friction dt p v).1.x = COURSE_LIMIT ∧
        (integrate friction dt p v).2.x = (velStep friction dt v).x * (-0.8)) ∧
      ((p + dt • velStep friction dt v).x < -COURSE_LIMIT →
        (integrate friction dt p v).1.x = -COURSE_LIMIT ∧
        (integrate friction dt p v).2.x = (velStep friction dt v).x * (-0.8)) ∧
      (-COURSE_LIMIT ≤ (p + dt • velStep friction dt v).x →
        (p + dt • velStep friction dt v).x ≤ COURSE_LIMIT →
        (integrate friction dt p v).1.x = (p + dt • velStep friction dt v).x ∧
        (integrate friction dt p v).2.x = (velStep friction dt v).x) ∧
      ((p + dt • velStep friction dt v).z > COURSE_LIMIT →
        (integrate friction dt p v).1.z = COURSE_LIMIT ∧
        (integrate friction dt p v).2.z = (velStep friction dt v).z * (-0.8)) ∧
      ((p + dt • velStep friction dt v).z < -COURSE_LIMIT →
        (integrate friction dt p v).1.z = -COURSE_LIMIT ∧
        (integrate friction dt p v).2.z = (velStep friction dt v).z * (-0.8)) ∧
      (-COURSE_LIMIT ≤ (p + dt • velStep friction dt v).z →
        (p + dt • velStep friction dt v).z ≤ COURSE_LIMIT →
        (integrate friction dt p v).1.z = (p + dt • velStep friction dt v).z ∧
        (integrate friction dt p v).2.z = (velStep friction dt v).z)) ∧
    (integrate 1.5 0.1 ⟨COURSE_LIMIT - 0.01, 0.6, 0⟩ ⟨2, 0, 0⟩).2.x =
      (velStep 1.5 0.1 ⟨2, 0, 0⟩).x * (-0.8) := by
  have hCL := COURSE_LIMIT_pos
  constructor
  · intro friction dt p v h
    obtain ⟨hx1, hx2⟩ := integrate_x_char friction dt p v h
    obtain ⟨hz1, hz2⟩ := integrate_z_char friction dt p v h
    refine ⟨?_, ?_, ?_, ?_, ?_, ?_⟩
    · intro hc
      rw [hx1, hx2, if_neg (by linarith), if_pos hc, if_neg (by linarith), if_pos hc]
      exact ⟨rfl, rfl⟩
    · intro hc
      rw [hx1, hx2, if_pos hc, if_pos hc]
      exact ⟨rfl, rfl⟩
    · intro hc1 hc2
      rw [hx1, hx2, if_neg (by linarith), if_neg (by linarith),
        if_neg (by linarith), if_neg (by linarith)]
      exact ⟨rfl, rfl⟩
    · intro hc
      rw [hz1, hz2, if_neg (by linarith), if_pos hc, if_neg (by linarith), if_pos hc]
      exact ⟨rfl, rfl⟩
    · intro hc
      rw [hz1, hz2, if_pos hc, if_pos hc]
      exact ⟨rfl, rfl⟩
    · intro hc1 hc2
      rw [hz1, hz2, if_neg (by linarith), if_neg (by linarith),
        if_neg (by linarith), if_neg (by linarith)]
      exact ⟨rfl, rfl⟩
  · have hg : (lengthSq ⟨2, 0, 0⟩ : ℝ) > 1e-6 := by norm_num [lengthSq]
    have hlen : length (⟨2, 0, 0⟩ : Vec3) = 2 :=
      length_eq_of_sq (by norm_num) (by norm_num [lengthSq])
    have hmax : max (0 : ℝ) (2 - 1.5 * 0.1) = 1.85 := by norm_num
    have hvs : velStep 1.5 0.1 ⟨2, 0, 0⟩ = ⟨1.85, 0, 0⟩ := by
      rw [velStep_eval hlen (by norm_num) hg hmax]
      ext <;> simp
    obtain ⟨_, hx2⟩ := integrate_x_char 1.5 0.1 ⟨COURSE_LIMIT - 0.01, 0.6, 0⟩ ⟨2, 0, 0⟩ hg
    rw [hvs] at hx2 ⊢
    have hcond1 : ¬((⟨COURSE_LIMIT - 0.01, 0.6, 0⟩ + (0.1 : ℝ) • (⟨1.85, 0, 0⟩ : Vec3)).x
        < -COURSE_LIMIT) := by
      simp [COURSE_LIMIT_eq]; norm_num
    have hcond2 : (⟨COURSE_LIMIT - 0.01, 0.6, 0⟩ + (0.1 : ℝ) • (⟨1.85, 0, 0⟩ : Vec3)).x
        > COURSE_LIMIT := by
      simp [COURSE_LIMIT_eq]; norm_num
    rw [hx2, if_neg hcond1, if_pos hcond2]

/-- Witness for `wall_bounce_clamp` at the concrete boundary crossing. -/
theorem wall_bounce_clamp_witness :
    (1e-6 : ℝ) < lengthSq ⟨2, 0, 0⟩ ∧
    (⟨COURSE_LIMIT - 0.01, 0.6, 0⟩ + (0.1 : ℝ) • velStep 1.5 0.1 ⟨2, 0, 0⟩).x
      > COURSE_LIMIT ∧
    (integrate 1.5 0.1 ⟨COURSE_LIMIT - 0.01, 0.6, 0⟩ ⟨2, 0, 0⟩).1.x = COURSE_LIMIT ∧
    (integrate 1.5 0.1 ⟨COURSE_LIMIT - 0.01, 0.6, 0⟩ ⟨2, 0, 0⟩).2.x =
      (velStep 1.5 0.1 ⟨2, 0, 0⟩).x * (-0.8) := by
  have hg : (1e-6 : ℝ) < lengthSq ⟨2, 0, 0⟩ := by norm_num [lengthSq]
  have hlen : length (⟨2, 0, 0⟩ : Vec3) = 2 :=
    length_eq_of_sq (by norm_num) (by norm_num [lengthSq])
  have hmax : max (0 : ℝ) (2 - 1.5 * 0.1) = 1.85 := by norm_num
  have hvs : velStep 1.5 0.1 ⟨2, 0, 0⟩ = ⟨1.85, 0, 0⟩ := by
    rw [velStep_eval hlen (by norm_num) hg hmax]
    ext <;> simp
  have hcond2 : (⟨COURSE_LIMIT - 0.01, 0.6, 0⟩ + (0.1 : ℝ) • velStep 1.5 0.1 ⟨2, 0, 0⟩).x
      > COURSE_LIMIT := by
    rw [hvs]; simp [COURSE_LIMIT_eq]; norm_num
  exact ⟨hg, hcond2,
    ((wall_bounce_clamp.1 1.5 0.1 ⟨COURSE_LIMIT - 0.01, 0.6, 0⟩ ⟨2, 0, 0⟩ hg).1 hcond2).1,
    ((wall_bounce_clamp.1 1.5 0.1 ⟨COURSE_LIMIT - 0.01, 0.6, 0⟩ ⟨2, 0, 0⟩ hg).1 hcond2).2⟩

/-! ## Claim C6: water friction override -/

/-- The distance the claim describes: horizontal only, the vertical
component ignored.  Stated from the spec's words, for comparison with the
source's full-3D `dist3`. -/
noncomputable def horizontalDist (a b : Vec3) : ℝ :=
  Real.sqrt ((a.x - b.x) ^ 2 + (a.z - b.z) ^ 2)

theorem dist3_not_lt {a b : Vec3} {r : ℝ} (hr : 0 < r)
    (h : ¬lengthSq (a - b) < r ^ 2) : ¬dist3 a b < r := by
  rw [dist3, length, Real.sqrt_lt' hr]
  exact h

theorem dist3_lt {a b : Vec3} {r : ℝ} (hr : 0 < r)
    (h : lengthSq (a - b) < r ^ 2) : dist3 a b < r := by
  rw [dist3, length, Real.sqrt_lt' hr]
  exact h

/-- Claim C6, counterexample: at ball position `(-0.41, 0.6, -4)` the
horizontal distance to the pond center `(-4, 0.02, -4)` is
`3.59 < 3.6` (inside the pond per the claim), but the code's
`distanceTo` includes the `0.58` vertical offset, giving
`√13.2245 > 3.6`, so friction stays 1.5 instead of 4.0. -/
theorem water_friction_horizontal_counterexample :
    horizontalDist ⟨-0.41, 0.6, -4⟩ ⟨-4, 0.02, -4⟩ < 3.6 ∧
    frictionAt 4 ⟨-0.41, 0.6, -4⟩ = 1.5 ∧ (1.5 : ℝ) ≠ 4.0 := by
  have hd : ¬dist3 ⟨-0.41, 0.6, -4⟩ ⟨-4, 0.02, -4⟩ < 3.6 :=
    dist3_not_lt (by norm_num) (by norm_num [lengthSq])
  refine ⟨?_, ?_, by norm_num⟩
  · rw [horizontalDist, Real.sqrt_lt' (by norm_num)]
    norm_num
  · rw [frictionAt, if_neg]
    rintro ⟨-, w, hw, hlt⟩
    simp [levelWaters] at hw
    rw [hw] at hlt
    exact hd hlt

/-- Claim C6, amended: friction defaults to 1.5 and is overridden to 4.0
for the current step exactly when the ball's full 3D distance
(`distanceTo`, vertical component included) to the pond center is
strictly below the pond radius — not the horizontal distance; on levels
other than 4 it is always 1.5.  The override is recomputed from the
current position on every step, so it never persists. -/
theorem water_friction_3d :
    (∀ pos : Vec3,
      frictionAt 4 pos = if dist3 pos ⟨-4, 0.02, -4⟩ < 3.6 then 4.0 else 1.5) ∧
    (∀ lvl : ℕ, ∀ pos : Vec3, lvl ≠ 4 → frictionAt lvl pos = 1.5) := by
  constructor
  · intro pos
    by_cases hd : dist3 pos ⟨-4, 0.02, -4⟩ < 3.6
    · rw [if_pos hd, frictionAt, if_pos]
      exact ⟨rfl, ⟨⟨⟨-4, 0.02, -4⟩, 3.6⟩, by simp [levelWaters], hd⟩⟩
    · rw [if_neg hd, frictionAt, if_neg]
      rintro ⟨-, w, hw, hlt⟩
      simp [levelWaters] at hw
      rw [hw] at hlt
      exact hd hlt
  · intro lvl pos hl
    rw [frictionAt, if_neg]
    exact fun h => hl h.1

/-- Witness for `water_friction_3d`: friction 1.5 on level 1, and 4.0 at
the pond center on level 4. -/
theorem water_friction_3d_witness :
    frictionAt 1 ⟨0, 0.6, 0⟩ = 1.5 ∧ frictionAt 4 ⟨-4, 0.6, -4⟩ = 4.0 := by
  have hd : dist3 ⟨-4, 0.6, -4⟩ ⟨-4, 0.02, -4⟩ < 3.6 :=
    dist3_lt (by norm_num) (by norm_num [lengthSq])
  exact ⟨water_friction_3d.2 1 ⟨0, 0.6, 0⟩ (by norm_num),
    (water_friction_3d.1 ⟨-4, 0.6, -4⟩).trans (if_pos hd)⟩

/-! ## Claim C10: pointer-up impulse (lines 534-546) -/

/-- Helper for concrete computations with `normalize`. -/
theorem normalize_of_length {v : Vec3} {L : ℝ} (h : length v = L) (hL : L ≠ 0) :
    normalize v = (1 / L) • v := by
  rw [normalize, h, if_neg hL]

theorem length_normalize {v : Vec3} (hv : v ≠ ⟨0, 0, 0⟩) : length (normalize v) = 1 := by
  have hL : 0 < length v := length_pos_of_ne hv
  rw [normalize_of_length rfl (ne_of_gt hL), length_smul,
    abs_of_nonneg (by positivity)]
  field_simp

/-- `onPointerUp`, lines 539-543: `dir = dragStart - release`,
`power = min(dir.length(), 6)`, `dir.setLength(power * 5)`,
`velocityRef.current.add(dir)`. -/
noncomputable def releaseVelocity (dragStart release vel : Vec3) : Vec3 :=
  let dir := dragStart - release
  let power := min (length dir) 6
  vel + setLength dir (power * 5)

/-- The impulse as the claim words it: the drag direction, given length
`min(dragLength, 6)` scaled by 5. -/
noncomputable def specImpulse (d : Vec3) : Vec3 :=
  (min (length d) 6 * 5) • normalize d

/-- `releaseVelocity` adds `specImpulse` of the drag vector to the
current velocity (shared by C9 and C10). -/
theorem releaseVelocity_eq (dragStart release vel : Vec3) :
    releaseVelocity dragStart release vel = vel + specImpulse (dragStart - release) := rfl

/-- Claim C10: the pointer-up impulse — drag direction with length
`min(dragLength, 6)`, scaled by 5 — is added to the current velocity, not
substituted for it; concretely, drag `(3,0,4)` (length 5) on a ball
already moving at `(1,0,0)` yields `(16,0,20)`, the sum of the old
velocity and the `(15,0,20)` impulse. -/
theorem release_adds_impulse :
    (∀ dragStart release v : Vec3,
      releaseVelocity dragStart release v = v + specImpulse (dragStart - release)) ∧
    specImpulse ⟨3, 0, 4⟩ = ⟨15, 0, 20⟩ ∧
    releaseVelocity ⟨3, 0, 4⟩ ⟨0, 0, 0⟩ ⟨1, 0, 0⟩ = ⟨16, 0, 20⟩ ∧
    (⟨16, 0, 20⟩ : Vec3) ≠ ⟨15, 0, 20⟩ := by
  have hlen : length (⟨3, 0, 4⟩ : Vec3) = 5 :=
    length_eq_of_sq (by norm_num) (by norm_num [lengthSq])
  have himp : specImpulse ⟨3, 0, 4⟩ = ⟨15, 0, 20⟩ := by
    rw [specImpulse, normalize_of_length hlen (by norm_num), hlen]
    ext <;> simp <;> norm_num
  refine ⟨releaseVelocity_eq, himp, ?_, ?_⟩
  · have hsub : (⟨3, 0, 4⟩ : Vec3) - ⟨0, 0, 0⟩ = ⟨3, 0, 4⟩ := by ext <;> simp
    rw [releaseVelocity_eq, hsub, himp]
    ext <;> simp <;> norm_num
  · intro h
    have := congrArg Vec3.x h
    norm_num at this

/-! ## Claim C7: moving block (lines 579-589, 644-653) -/

/-- The `moving` branch of `handleObstacleCollisions`, lines 579-589.
`dir.multiplyScalar(5)` and the later `dir.multiplyScalar(-0.04)` mutate
`dir` in place, so the block nudge is `(-0.04)·(5·dir̂)`, i.e. 0.2 units.
Returns the updated ball velocity and block position. -/
noncomputable def movingBlockCollide (blockPos ballPos vel : Vec3) : Vec3 × Vec3 :=
  if dist3 blockPos ballPos < BALL_RADIUS + 0.6 then
    let dir0 := normalize (ballPos - blockPos)
    let dir1 := (5 : ℝ) • dir0
    let vel1 := vel + dir1
    let dir2 := (-0.04 : ℝ) • dir1
    (vel1, blockPos + dir2)
  else (vel, blockPos)

/-- The oscillation update for an x-axis moving block, lines 648-649:
only `position.x` is recomputed from `basePos`; y and z keep whatever
values the mesh currently has. -/
noncomputable def oscillateX (basePos : Vec3) (amp spd t : ℝ) (cur : Vec3) : Vec3 :=
  ⟨basePos.x + Real.sin (t * spd) * amp, cur.y, cur.z⟩

theorem sub_ne_zero_vec {a b : Vec3} (h : a ≠ b) : a - b ≠ ⟨0, 0, 0⟩ := by
  intro hc
  apply h
  have hx := congrArg Vec3.x hc
  have hy := congrArg Vec3.y hc
  have hz := congrArg Vec3.z hc
  simp only [Vec3.sub_x, Vec3.sub_y, Vec3.sub_z] at hx hy hz
  exact Vec3.ext (by linarith) (by linarith) (by linarith)

/-- Claim C7, counterexample: block at `(0, 0.6, -12)` (the level-2
oscillating block), ball at `(0.3, 0.6, -11.6)` (distance 0.5, in
contact).  The block is displaced by 0.2 units — to `(-0.12, 0.6, -12.16)`
— not 0.04, because `dir` was already scaled by 5 when the nudge reuses
it; and the next oscillation update restores only `x`, leaving
`z = -12.16` permanently displaced from the base `z = -12`. -/
theorem moving_block_nudge_counterexample :
    (movingBlockCollide ⟨0, 0.6, -12⟩ ⟨0.3, 0.6, -11.6⟩ ⟨0, 0, 0⟩).2 =
      ⟨-0.12, 0.6, -12.16⟩ ∧
    dist3 ⟨-0.12, 0.6, -12.16⟩ ⟨0, 0.6, -12⟩ = 0.2 ∧ (0.2 : ℝ) ≠ 0.04 ∧
    oscillateX ⟨0, 0.6, -12⟩ 3 1.2 0 ⟨-0.12, 0.6, -12.16⟩ = ⟨0, 0.6, -12.16⟩ ∧
    (⟨0, 0.6, -12.16⟩ : Vec3) ≠ ⟨0, 0.6, -12⟩ := by
  have hc : dist3 ⟨0, 0.6, -12⟩ ⟨0.3, 0.6, -11.6⟩ < BALL_RADIUS + 0.6 := by
    rw [BALL_RADIUS]
    exact dist3_lt (by norm_num) (by norm_num [lengthSq])
  have hsub : (⟨0.3, 0.6, -11.6⟩ : Vec3) - ⟨0, 0.6, -12⟩ = ⟨0.3, 0, 0.4⟩ := by
    ext <;> simp <;> norm_num
  have hlen : length (⟨0.3, 0, 0.4⟩ : Vec3) = 0.5 :=
    length_eq_of_sq (by norm_num) (by norm_num [lengthSq])
  have hnorm : normalize (⟨0.3, 0, 0.4⟩ : Vec3) = ⟨0.6, 0, 0.8⟩ := by
    rw [normalize_of_length hlen (by norm_num)]
    ext <;> simp <;> norm_num
  refine ⟨?_, ?_, by norm_num, ?_, ?_⟩
  · rw [movingBlockCollide, if_pos hc]
    simp only [hsub, hnorm]
    ext <;> simp <;> norm_num
  · have : (⟨-0.12, 0.6, -12.16⟩ : Vec3) - ⟨0, 0.6, -12⟩ = ⟨-0.12, 0, -0.16⟩ := by
      ext <;> simp <;> norm_num
    rw [dist3, this]
    exact length_eq_of_sq (by norm_num) (by norm_num [lengthSq])
  · rw [oscillateX]
    ext <;> simp
  · intro h
    have := congrArg Vec3.z h
    norm_num at this

/-- Claim C7, amended: on contact the ball velocity gains an additive
impulse of magnitude exactly 5 along the normalized block-to-ball
direction (this part of the claim is right), but the block itself is
displaced 0.2 units backward (the direction vector is reused after
`multiplyScalar(5)`, so the `-0.04` scale yields `-0.2`), and the next
frame's oscillation update restores only the oscillation-axis coordinate:
the y and z components of the nudge persist. -/
theorem moving_block_impulse :
    ∀ b p v : Vec3, dist3 b p < BALL_RADIUS + 0.6 → p ≠ b →
      (movingBlockCollide b p v).1 = v + (5 : ℝ) • normalize (p - b) ∧
      length ((5 : ℝ) • normalize (p - b)) = 5 ∧
      (movingBlockCollide b p v).2 = b + (-0.2 : ℝ) • normalize (p - b) ∧
      (∀ base : Vec3, ∀ amp spd τ : ℝ,
        (oscillateX base amp spd τ (movingBlockCollide b p v).2).x =
          base.x + Real.sin (τ * spd) * amp ∧
        (oscillateX base amp spd τ (movingBlockCollide b p v).2).y =
          ((movingBlockCollide b p v).2).y ∧
        (oscillateX base amp spd τ (movingBlockCollide b p v).2).z =
          ((movingBlockCollide b p v).2).z) := by
  intro b p v hd hne
  have hsub := sub_ne_zero_vec hne
  have hcol : movingBlockCollide b p v =
      (v + (5 : ℝ) • normalize (p - b), b + (-0.04 : ℝ) • ((5 : ℝ) • normalize (p - b))) := by
    rw [movingBlockCollide, if_pos hd]
  refine ⟨by rw [hcol], ?_, ?_, ?_⟩
  · rw [length_smul, length_normalize hsub]
    norm_num
  · rw [hcol]
    have : (-0.04 : ℝ) • ((5 : ℝ) • normalize (p - b)) = (-0.2 : ℝ) • normalize (p - b) := by
      ext <;> simp <;> ring
    rw [this]
  · intro base amp spd τ
    exact ⟨rfl, rfl, rfl⟩

/-- Witness for `moving_block_impulse` at the concrete level-2 contact. -/
theorem moving_block_impulse_witness :
    dist3 ⟨0, 0.6, -12⟩ ⟨0.3, 0.6, -11.6⟩ < BALL_RADIUS + 0.6 ∧
    (movingBlockCollide ⟨0, 0.6, -12⟩ ⟨0.3, 0.6, -11.6⟩ ⟨0, 0, 0⟩).1 =
      ⟨0, 0, 0⟩ + (5 : ℝ) • normalize (⟨0.3, 0.6, -11.6⟩ - ⟨0, 0.6, -12⟩) ∧
    length ((5 : ℝ) • normalize ((⟨0.3, 0.6, -11.6⟩ : Vec3) - ⟨0, 0.6, -12⟩)) = 5 ∧
    (movingBlockCollide ⟨0, 0.6, -12⟩ ⟨0.3, 0.6, -11.6⟩ ⟨0, 0, 0⟩).2 =
      ⟨0, 0.6, -12⟩ + (-0.2 : ℝ) • normalize (⟨0.3, 0.6, -11.6⟩ - ⟨0, 0.6, -12⟩) := by
  have hc : dist3 ⟨0, 0.6, -12⟩ ⟨0.3, 0.6, -11.6⟩ < BALL_RADIUS + 0.6 := by
    rw [BALL_RADIUS]
    exact dist3_lt (by norm_num) (by norm_num [lengthSq])
  have hne : (⟨0.3, 0.6, -11.6⟩ : Vec3) ≠ ⟨0, 0.6, -12⟩ := by
    intro h
    have := congrArg Vec3.x h
    norm_num at this
  obtain ⟨h1, h2, h3, _⟩ :=
    moving_block_impulse ⟨0, 0.6, -12⟩ ⟨0.3, 0.6, -11.6⟩ ⟨0, 0, 0⟩ hc hne
  exact ⟨hc, h1, h2, h3⟩

/-! ## Claim C8: trajectory preview (lines 487-502) -/

open Classical in
/-- The loop body of `simulateTrajectory`, lines 494-500: fuel counts the
remaining preview dots (at most `trajDots.length = 40`); break when
`simVel.lengthSq() < 1e-6`; otherwise FIRST `addScaledVector(simVel, dt)`
with `dt = 0.06` and record the point, THEN decay the speed with the
fixed `localFriction = 1.5` (line 492-493 assign 1.5 on every level; the
pond is not consulted). -/
noncomputable def simTrajAux : ℕ → Vec3 → Vec3 → List Vec3
  | 0, _, _ => []
  | n + 1, simPos, simVel =>
    if lengthSq simVel < 1e-6 then []
    else
      let pos1 := simPos + (0.06 : ℝ) • simVel
      let vel1 := setLength simVel (max 0 (length simVel - 1.5 * 0.06))
      pos1 :: simTrajAux n pos1 vel1

/-- `simulateTrajectory(start, vel)`, lines 487-502, with the 40-dot
budget of line 464. -/
noncomputable def simulateTrajectory (start vel : Vec3) : List Vec3 :=
  simTrajAux 40 start vel

theorem simTrajAux_stop {n : ℕ} {p v : Vec3} (h : lengthSq v < 1e-6) :
    simTrajAux (n + 1) p v = [] := by
  simp only [simTrajAux, if_pos h]

theorem simTrajAux_go {n : ℕ} {p v : Vec3} (h : ¬lengthSq v < 1e-6) :
    simTrajAux (n + 1) p v =
      (p + (0.06 : ℝ) • v) :: simTrajAux n (p + (0.06 : ℝ) • v)
        (setLength v (max 0 (length v - 1.5 * 0.06))) := by
  simp only [simTrajAux, if_neg h]

theorem simTrajAux_length : ∀ (n : ℕ) (p v : Vec3), (simTrajAux n p v).length ≤ n
  | 0, _, _ => by simp [simTrajAux]
  | n + 1, p, v => by
    by_cases h : lengthSq v < 1e-6
    · rw [simTrajAux_stop h]
      simp
    · rw [simTrajAux_go h]
      simpa using Nat.succ_le_succ (simTrajAux_length n _ _)

/-- Claim C8, counterexample: from the origin with velocity `(5,0,0)`, the
preview's first predicted point is `(0.3, 0, 0)` (translation with the
not-yet-decayed velocity), while the live integrator with the same state
and `dt = 0.06` puts the ball at `(0.2946, 0, 0)` (translation with the
already-decayed velocity `4.91`): the preview does not apply the same
integration rule as the live step. -/
theorem trajectory_order_counterexample :
    (simulateTrajectory ⟨0, 0, 0⟩ ⟨5, 0, 0⟩).head? = some ⟨0.3, 0, 0⟩ ∧
    (integrate 1.5 0.06 ⟨0, 0, 0⟩ ⟨5, 0, 0⟩).1 = ⟨0.2946, 0, 0⟩ ∧
    (⟨0.3, 0, 0⟩ : Vec3) ≠ ⟨0.2946, 0, 0⟩ := by
  have h40 : (40 : ℕ) = 39 + 1 := by norm_num
  have hnl : ¬lengthSq (⟨5, 0, 0⟩ : Vec3) < 1e-6 := by norm_num [lengthSq]
  have hp1 : (⟨0, 0, 0⟩ : Vec3) + (0.06 : ℝ) • ⟨5, 0, 0⟩ = ⟨0.3, 0, 0⟩ := by
    ext <;> simp <;> norm_num
  refine ⟨?_, ?_, ?_⟩
  · rw [simulateTrajectory, h40, simTrajAux_go hnl, hp1]
    rfl
  · have hg : (lengthSq ⟨5, 0, 0⟩ : ℝ) > 1e-6 := by norm_num [lengthSq]
    have hlen : length (⟨5, 0, 0⟩ : Vec3) = 5 :=
      length_eq_of_sq (by norm_num) (by norm_num [lengthSq])
    have hmax : max (0 : ℝ) (5 - 1.5 * 0.06) = 4.91 := by norm_num
    have hvs : velStep 1.5 0.06 ⟨5, 0, 0⟩ = ⟨4.91, 0, 0⟩ := by
      rw [velStep_eval hlen (by norm_num) hg hmax]
      ext <;> simp <;> norm_num
    rw [integrate_noClamp hg] <;> rw [hvs] <;>
      simp [COURSE_LIMIT_eq] <;> norm_num
    ext <;> simp <;> norm_num
  · intro h
    have := congrArg Vec3.x h
    norm_num at this

/-- Claim C8, amended: the preview is a pure function of
`(startPosition, initialVelocity)` producing at most 40 points, stops
before recording a sample once the squared predicted speed is below the
stationary epsilon, and uses the same `max(0, s - f·dt)` speed decay with
fixed friction 1.5 (no water override) — but each sample advances the
position with the *pre-decay* velocity and only then decays it, so its
points lead the live integrator (which decays first) by one decay. -/
theorem trajectory_preview_props :
    (∀ s v : Vec3, (simulateTrajectory s v).length ≤ 40) ∧
    (∀ s v : Vec3, lengthSq v < 1e-6 → simulateTrajectory s v = []) ∧
    (∀ s v : Vec3, ¬lengthSq v < 1e-6 →
      (simulateTrajectory s v).head? = some (s + (0.06 : ℝ) • v)) ∧
    (∀ s v : Vec3, 1e-6 < lengthSq v → 1e-6 < lengthSq (velStep 1.5 0.06 v) →
      (simulateTrajectory s v).get? 1 =
        some ((s + (0.06 : ℝ) • v) + (0.06 : ℝ) • velStep 1.5 0.06 v)) := by
  refine ⟨?_, ?_, ?_, ?_⟩
  · intro s v
    exact simTrajAux_length 40 s v
  · intro s v h
    have h40 : (40 : ℕ) = 39 + 1 := by norm_num
    rw [simulateTrajectory, h40, simTrajAux_stop h]
  · intro s v h
    have h40 : (40 : ℕ) = 39 + 1 := by norm_num
    rw [simulateTrajectory, h40, simTrajAux_go h]
    rfl
  · intro s v h1 h2
    have h40 : (40 : ℕ) = 39 + 1 := by norm_num
    have h39 : (39 : ℕ) = 38 + 1 := by norm_num
    have hn1 : ¬lengthSq v < 1e-6 := by linarith
    have hvs : setLength v (max 0 (length v - 1.5 * 0.06)) = velStep 1.5 0.06 v :=
      (velStep_moving h1).symm
    have hn2 : ¬lengthSq (velStep 1.5 0.06 v) < 1e-6 := by linarith
    rw [simulateTrajectory, h40, simTrajAux_go hn1, hvs, h39, simTrajAux_go hn2]
    rfl

/-- Witness for `trajectory_preview_props` at concrete inputs. -/
theorem trajectory_preview_props_witness :
    (lengthSq (⟨0, 0, 0⟩ : Vec3) < 1e-6 ∧
      simulateTrajectory ⟨1, 0.6, 2⟩ ⟨0, 0, 0⟩ = []) ∧
    (¬lengthSq (⟨5, 0, 0⟩ : Vec3) < 1e-6 ∧
      (simulateTrajectory ⟨0, 0, 0⟩ ⟨5, 0, 0⟩).head? =
        some (⟨0, 0, 0⟩ + (0.06 : ℝ) • ⟨5, 0, 0⟩)) ∧
    ((1e-6 : ℝ) < lengthSq ⟨5, 0, 0⟩ ∧
      (1e-6 : ℝ) < lengthSq (velStep 1.5 0.06 ⟨5, 0, 0⟩) ∧
      (simulateTrajectory ⟨0, 0, 0⟩ ⟨5, 0, 0⟩).get? 1 =
        some ((⟨0, 0, 0⟩ + (0.06 : ℝ) • ⟨5, 0, 0⟩) +
          (0.06 : ℝ) • velStep 1.5 0.06 ⟨5, 0, 0⟩)) := by
  have hg : (1e-6 : ℝ) < lengthSq ⟨5, 0, 0⟩ := by norm_num [lengthSq]
  have hlen : length (⟨5, 0, 0⟩ : Vec3) = 5 :=
    length_eq_of_sq (by norm_num) (by norm_num [lengthSq])
  have hmax : max (0 : ℝ) (5 - 1.5 * 0.06) = 4.91 := by norm_num
  have hvs : velStep 1.5 0.06 ⟨5, 0, 0⟩ = ⟨4.91, 0, 0⟩ := by
    rw [velStep_eval hlen (by norm_num) hg hmax]
    ext <;> simp <;> norm_num
  have hg2 : (1e-6 : ℝ) < lengthSq (velStep 1.5 0.06 ⟨5, 0, 0⟩) := by
    rw [hvs]
    norm_num [lengthSq]
  exact ⟨⟨by norm_num [lengthSq],
      trajectory_preview_props.2.1 ⟨1, 0.6, 2⟩ ⟨0, 0, 0⟩ (by norm_num [lengthSq])⟩,
    ⟨by norm_num [lengthSq],
      trajectory_preview_props.2.2.1 ⟨0, 0, 0⟩ ⟨5, 0, 0⟩ (by norm_num [lengthSq])⟩,
    hg, hg2, trajectory_preview_props.2.2.2 ⟨0, 0, 0⟩ ⟨5, 0, 0⟩ hg hg2⟩

/-! ## Frame state machine (lines 634-788) -/

/-- The sinking record `sinkingRef.current` (line 47):
`{active, t, start, end}`. -/
structure SinkState where
  active : Bool
  t : ℝ
  start : Vec3
  endPos : Vec3

/-- The per-frame mutable state of the animate loop: ball transform and
velocity, the sink record, the one-shot `holeTriggeredRef` latch, the
`holeDone` prop as captured by the effect closure, plus a count of
`onHoleComplete` invocations (incremented exactly where line 769 calls
the callback). -/
structure GameState where
  ballPos : Vec3
  ballScale : ℝ
  vel : Vec3
  sinking : SinkState
  holeTriggered : Bool
  holeDone : Bool
  completeCount : ℕ

/-- `THREE.Vector3.lerpVectors(a, b, alpha)`. -/
noncomputable def lerpV (a b : Vec3) (alpha : ℝ) : Vec3 := a + alpha • (b - a)

/-- Physics phase, lines 673-722: skipped entirely while a sink is
active; otherwise it updates only the ball position and velocity.  The
concrete update (friction, integration, wall bounce, obstacle
resolution) is passed as `phys` so that the latch/once theorems hold for
every possible ball trajectory; `level1Phys` below instantiates it with
the real level-1 physics. -/
noncomputable def physPhase (phys : ℝ → Vec3 → Vec3 → Vec3 × Vec3) (dt : ℝ)
    (s : GameState) : GameState :=
  if s.sinking.active then s
  else
    { s with ballPos := (phys dt s.ballPos s.vel).1, vel := (phys dt s.ballPos s.vel).2 }

open Classical in
/-- Hole detection, lines 725-747: fires only when `!holeDone`, no sink
is active, the `holeTriggeredRef` latch is unset, and
`distanceTo(hole) < HOLE_RADIUS`; it then sets the latch, zeroes the
velocity, and activates the sink with `t = 0`, `start` the current ball
position and `end` the hole center with `y` forced to `-0.5`. -/
noncomputable def detectPhase (hole : Vec3) (s : GameState) : GameState :=
  if s.holeDone = false ∧ s.sinking.active = false ∧ s.holeTriggered = false ∧
      dist3 s.ballPos hole < HOLE_RADIUS then
    { s with
      holeTriggered := true, vel := ⟨0, 0, 0⟩,
      sinking := ⟨true, 0, s.ballPos, ⟨hole.x, -0.5, hole.z⟩⟩ }
  else s

open Classical in
/-- Sinking phase, lines 750-775: advance `t` by `dt`, smoothstep-ease
the clamped progress `min(1, t/1.2)`, lerp the ball between `start` and
`end` and shrink its scale; when the clamped progress reaches 1,
deactivate the sink, snap the position to `end` and the scale to `0.3`,
and invoke `onHoleComplete` (counted here). -/
noncomputable def sinkPhase (dt : ℝ) (s : GameState) : GameState :=
  if s.sinking.active then
    let t' := s.sinking.t + dt
    let tc := min 1 (t' / 1.2)
    let eased := tc * tc * (3 - 2 * tc)
    if 1 ≤ tc then
      { s with
        sinking := ⟨false, t', s.sinking.start, s.sinking.endPos⟩,
        ballPos := s.sinking.endPos, ballScale := 0.3,
        completeCount := s.completeCount + 1 }
    else
      { s with
        sinking := ⟨true, t', s.sinking.start, s.sinking.endPos⟩,
        ballPos := lerpV s.sinking.start s.sinking.endPos eased,
        ballScale := 1 - 0.7 * eased }
  else s

/-- One frame of the ball-related logic of `animate` (lines 673-775), in
source order: physics, then hole detection, then sinking. -/
noncomputable def frameStep (phys : ℝ → Vec3 → Vec3 → Vec3 × Vec3) (hole : Vec3)
    (dt : ℝ) (s : GameState) : GameState :=
  sinkPhase dt (detectPhase hole (physPhase phys dt s))

/-- A sequence of frames with the given deltas. -/
noncomputable def runFrames (phys : ℝ → Vec3 → Vec3 → Vec3 × Vec3) (hole : Vec3)
    (dts : List ℝ) (s : GameState) : GameState :=
  dts.foldl (fun st d => frameStep phys hole d st) s

/-- The external reset, `handleRetry` / `handleNext` (lines 821-848):
ball back to spawn `(0, BALL_RADIUS, 0)` at scale 1, velocity zeroed,
sink deactivated, latch cleared, `setHoleDone(false)`.  The completion
count records past callback invocations, so a reset leaves it as is. -/
noncomputable def resetState (s : GameState) : GameState :=
  { s with
    ballPos := ⟨0, BALL_RADIUS, 0⟩, ballScale := 1, vel := ⟨0, 0, 0⟩,
    sinking := ⟨false, s.sinking.t, s.sinking.start, s.sinking.endPos⟩,
    holeTriggered := false, holeDone := false }

/-- `onPointerUp` (lines 534-546) acting on the frame state: it updates
only the velocity ref; nothing in the handler reads or guards on the
sink state. -/
noncomputable def applyRelease (dragStart release : Vec3) (s : GameState) : GameState :=
  { s with vel := releaseVelocity dragStart release s.vel }

/-- The level-1 hole position (line 258). -/
noncomputable def holePos1 : Vec3 := ⟨5, 0.05, -3⟩

/-- The real physics phase for level 1: friction selection followed by
integration and wall bounce.  Level 1 registers no obstacles, so
`handleObstacleCollisions` contributes nothing there. -/
noncomputable def level1Phys (dt : ℝ) (pos vel : Vec3) : Vec3 × Vec3 :=
  integrate (frictionAt 1 pos) dt pos vel

theorem frictionAt_of_ne {lvl : ℕ} (h : lvl ≠ 4) (pos : Vec3) :
    frictionAt lvl pos = 1.5 := by
  rw [frictionAt, if_neg]
  exact fun hc => h hc.1

theorem HOLE_RADIUS_eq : HOLE_RADIUS = 1.2 := by
  norm_num [HOLE_RADIUS, BALL_RADIUS]

theorem physPhase_skip {phys : ℝ → Vec3 → Vec3 → Vec3 × Vec3} {dt : ℝ}
    {s : GameState} (h : s.sinking.active = true) : physPhase phys dt s = s := by
  rw [physPhase, if_pos h]

theorem physPhase_not_active {phys : ℝ → Vec3 → Vec3 → Vec3 × Vec3} {dt : ℝ}
    {s : GameState} (h : s.sinking.active = false) :
    physPhase phys dt s =
      { s with
        ballPos := (phys dt s.ballPos s.vel).1, vel := (phys dt s.ballPos s.vel).2 } := by
  rw [physPhase, if_neg (by simp [h])]

theorem detectPhase_latched {hole : Vec3} {s : GameState}
    (h : s.holeTriggered = true) : detectPhase hole s = s := by
  rw [detectPhase, if_neg]
  rintro ⟨-, -, h3, -⟩
  rw [h] at h3
  exact absurd h3 (by simp)

theorem detectPhase_activeSkip {hole : Vec3} {s : GameState}
    (h : s.sinking.active = true) : detectPhase hole s = s := by
  rw [detectPhase, if_neg]
  rintro ⟨-, h2, -, -⟩
  rw [h] at h2
  exact absurd h2 (by simp)

theorem detectPhase_fire {hole : Vec3} {s : GameState}
    (h : s.holeDone = false ∧ s.sinking.active = false ∧ s.holeTriggered = false ∧
      dist3 s.ballPos hole < HOLE_RADIUS) :
    detectPhase hole s =
      { s with
        holeTriggered := true, vel := ⟨0, 0, 0⟩,
        sinking := ⟨true, 0, s.ballPos, ⟨hole.x, -0.5, hole.z⟩⟩ } := by
  rw [detectPhase, if_pos h]

theorem sinkPhase_skip {dt : ℝ} {s : GameState} (h : s.sinking.active = false) :
    sinkPhase dt s = s := by
  rw [sinkPhase, if_neg (by simp [h])]

theorem sinkPhase_complete {dt : ℝ} {s : GameState} (ha : s.sinking.active = true)
    (ht : 1.2 ≤ s.sinking.t + dt) :
    sinkPhase dt s =
      { s with
        sinking := ⟨false, s.sinking.t + dt, s.sinking.start, s.sinking.endPos⟩,
        ballPos := s.sinking.endPos, ballScale := 0.3,
        completeCount := s.completeCount + 1 } := by
  rw [sinkPhase, if_pos ha]
  simp only
  rw [if_pos]
  exact le_min le_rfl ((le_div_iff₀ (by norm_num)).mpr (by linarith))

theorem sinkPhase_progress {dt : ℝ} {s : GameState} (ha : s.sinking.active = true)
    (ht : ¬1 ≤ min 1 ((s.sinking.t + dt) / 1.2)) :
    sinkPhase dt s =
      { s with
        sinking := ⟨true, s.sinking.t + dt, s.sinking.start, s.sinking.endPos⟩,
        ballPos := lerpV s.sinking.start s.sinking.endPos
          (min 1 ((s.sinking.t + dt) / 1.2) * min 1 ((s.sinking.t + dt) / 1.2) *
            (3 - 2 * min 1 ((s.sinking.t + dt) / 1.2))),
        ballScale := 1 - 0.7 *
          (min 1 ((s.sinking.t + dt) / 1.2) * min 1 ((s.sinking.t + dt) / 1.2) *
            (3 - 2 * min 1 ((s.sinking.t + dt) / 1.2))) } := by
  rw [sinkPhase, if_pos ha]
  simp only
  rw [if_neg ht]

/-- A frame entered with an active sink whose elapsed time reaches the
1.2 s total: physics and detection are skipped, the sink completes. -/
theorem frameStep_complete_eval (phys : ℝ → Vec3 → Vec3 → Vec3 × Vec3) (hole : Vec3)
    (dt : ℝ) (s : GameState) (ha : s.sinking.active = true)
    (ht : 1.2 ≤ s.sinking.t + dt) :
    frameStep phys hole dt s =
      { s with
        sinking := ⟨false, s.sinking.t + dt, s.sinking.start, s.sinking.endPos⟩,
        ballPos := s.sinking.endPos, ballScale := 0.3,
        completeCount := s.completeCount + 1 } := by
  rw [frameStep, physPhase_skip ha, detectPhase_activeSkip ha, sinkPhase_complete ha ht]

/-- A frame from a latched, non-sinking state is pure physics: detection
is blocked by the latch and the sink phase is inactive. -/
theorem frameStep_latched {phys : ℝ → Vec3 → Vec3 → Vec3 × Vec3} {hole : Vec3}
    {dt : ℝ} {s : GameState} (h1 : s.holeTriggered = true)
    (h2 : s.sinking.active = false) :
    frameStep phys hole dt s = physPhase phys dt s := by
  have h3 : (physPhase phys dt s).holeTriggered = true := by
    rw [physPhase_not_active h2]; exact h1
  have h4 : (physPhase phys dt s).sinking.active = false := by
    rw [physPhase_not_active h2]; exact h2
  rw [frameStep, detectPhase_latched h3, sinkPhase_skip h4]

/-- A frame that triggers the sink (no latch, ball lands in hole radius
after physics) and does not yet complete it. -/
theorem frameStep_trigger_eval (phys : ℝ → Vec3 → Vec3 → Vec3 × Vec3) (hole : Vec3)
    (dt : ℝ) (s : GameState) (ha : s.sinking.active = false)
    (hd : s.holeDone = false) (htr : s.holeTriggered = false)
    (hdist : dist3 (phys dt s.ballPos s.vel).1 hole < HOLE_RADIUS)
    (hnc : ¬1 ≤ min 1 ((0 + dt) / 1.2)) :
    frameStep phys hole dt s =
      { s with
        holeTriggered := true, vel := ⟨0, 0, 0⟩,
        sinking := ⟨true, 0 + dt, (phys dt s.ballPos s.vel).1, ⟨hole.x, -0.5, hole.z⟩⟩,
        ballPos := lerpV (phys dt s.ballPos s.vel).1 ⟨hole.x, -0.5, hole.z⟩
          (min 1 ((0 + dt) / 1.2) * min 1 ((0 + dt) / 1.2) *
            (3 - 2 * min 1 ((0 + dt) / 1.2))),
        ballScale := 1 - 0.7 *
          (min 1 ((0 + dt) / 1.2) * min 1 ((0 + dt) / 1.2) *
            (3 - 2 * min 1 ((0 + dt) / 1.2))) } := by
  have h1 : detectPhase hole (physPhase phys dt s) =
      { s with
        ballPos := (phys dt s.ballPos s.vel).1,
        holeTriggered := true, vel := ⟨0, 0, 0⟩,
        sinking := ⟨true, 0, (phys dt s.ballPos s.vel).1, ⟨hole.x, -0.5, hole.z⟩⟩ } := by
    rw [physPhase_not_active ha]
    exact detectPhase_fire ⟨hd, ha, htr, hdist⟩
  rw [frameStep, h1, sinkPhase_progress rfl hnc]

/-- An active sink implies the latch is set.  Established when the sink is
triggered; nothing in a frame unsets the latch. -/
def SinkInv (s : GameState) : Prop := s.sinking.active = true → s.holeTriggered = true

/-- Completion potential: callbacks already made plus those still
possible. 1 while a sink is pending (active, or not yet triggered),
0 once the latch is set with no active sink. -/
def phi (s : GameState) : ℕ :=
  s.completeCount + (if s.sinking.active then 1 else if s.holeTriggered then 0 else 1)

theorem completeCount_le_phi (s : GameState) : s.completeCount ≤ phi s :=
  Nat.le_add_right _ _

theorem physPhase_phi (phys : ℝ → Vec3 → Vec3 → Vec3 × Vec3) (dt : ℝ) (s : GameState) :
    phi (physPhase phys dt s) = phi s ∧ (SinkInv s → SinkInv (physPhase phys dt s)) := by
  by_cases h : s.sinking.active = true
  · rw [physPhase_skip h]
    exact ⟨rfl, id⟩
  · rw [physPhase_not_active (by simpa using h)]
    exact ⟨rfl, id⟩

theorem detectPhase_phi (hole : Vec3) (s : GameState) :
    phi (detectPhase hole s) = phi s ∧ (SinkInv s → SinkInv (detectPhase hole s)) := by
  by_cases hd : s.holeDone = false ∧ s.sinking.active = false ∧ s.holeTriggered = false ∧
      dist3 s.ballPos hole < HOLE_RADIUS
  · rw [detectPhase_fire hd]
    constructor
    · simp [phi, hd.2.1, hd.2.2.1]
    · intro _ _
      rfl
  · rw [detectPhase, if_neg hd]
    exact ⟨rfl, id⟩

theorem sinkPhase_phi (dt : ℝ) (s : GameState) (hInv : SinkInv s) :
    phi (sinkPhase dt s) = phi s ∧ SinkInv (sinkPhase dt s) := by
  by_cases ha : s.sinking.active = true
  · by_cases hc : 1 ≤ min 1 ((s.sinking.t + dt) / 1.2)
    · have ht : 1.2 ≤ s.sinking.t + dt := by
        have := (le_min_iff.mp hc).2
        rw [le_div_iff₀ (by norm_num)] at this
        linarith
      rw [sinkPhase_complete ha ht]
      constructor
      · simp [phi, ha, hInv ha]
      · intro h
        exact absurd h (by simp)
    · rw [sinkPhase_progress ha hc]
      constructor
      · simp [phi, ha]
      · intro _
        exact hInv ha
  · rw [sinkPhase_skip (by simpa using ha)]
    exact ⟨rfl, hInv⟩

theorem frameStep_phi (phys : ℝ → Vec3 → Vec3 → Vec3 × Vec3) (hole : Vec3) (dt : ℝ)
    (s : GameState) (hInv : SinkInv s) :
    phi (frameStep phys hole dt s) = phi s ∧ SinkInv (frameStep phys hole dt s) := by
  obtain ⟨e1, i1⟩ := physPhase_phi phys dt s
  obtain ⟨e2, i2⟩ := detectPhase_phi hole (physPhase phys dt s)
  obtain ⟨e3, i3⟩ := sinkPhase_phi dt (detectPhase hole (physPhase phys dt s)) (i2 (i1 hInv))
  exact ⟨by rw [frameStep, e3, e2, e1], i3⟩

theorem runFrames_phi (phys : ℝ → Vec3 → Vec3 → Vec3 × Vec3) (hole : Vec3) :
    ∀ (dts : List ℝ) (s : GameState), SinkInv s →
      phi (runFrames phys hole dts s) = phi s ∧ SinkInv (runFrames phys hole dts s)
  | [], s, hInv => ⟨rfl, hInv⟩
  | d :: dts, s, hInv => by
    obtain ⟨e1, i1⟩ := frameStep_phi phys hole d s hInv
    obtain ⟨e2, i2⟩ := runFrames_phi phys hole dts (frameStep phys hole d s) i1
    exact ⟨by rw [runFrames] at e2 ⊢; simpa [e1] using e2, by rw [runFrames] at i2 ⊢; exact i2⟩

/-- A latched, non-sinking state stays latched and non-sinking across any
frame sequence, and the callback count never moves. -/
theorem runFrames_latched (phys : ℝ → Vec3 → Vec3 → Vec3 × Vec3) (hole : Vec3) :
    ∀ (dts : List ℝ) (s : GameState), s.holeTriggered = true → s.sinking.active = false →
      (runFrames phys hole dts s).completeCount = s.completeCount ∧
      (runFrames phys hole dts s).holeTriggered = true ∧
      (runFrames phys hole dts s).sinking.active = false
  | [], s, h1, h2 => ⟨rfl, h1, h2⟩
  | d :: dts, s, h1, h2 => by
    have hstep : frameStep phys hole d s = physPhase phys d s := frameStep_latched h1 h2
    have hp : physPhase phys d s = { s with
        ballPos := (phys d s.ballPos s.vel).1, vel := (phys d s.ballPos s.vel).2 } :=
      physPhase_not_active h2
    have ih := runFrames_latched phys hole dts (frameStep phys hole d s)
      (by rw [hstep, hp]; exact h1) (by rw [hstep, hp]; exact h2)
    refine ⟨?_, ?_, ?_⟩
    · rw [runFrames] at ih ⊢
      simp only [List.foldl_cons]
      rw [ih.1, hstep, hp]
    · rw [runFrames] at ih ⊢
      simp only [List.foldl_cons]
      exact ih.2.1
    · rw [runFrames] at ih ⊢
      simp only [List.foldl_cons]
      exact ih.2.2

theorem smul_smul_vec (a b : ℝ) (v : Vec3) : a • (b • v) = (a * b) • v := by
  ext <;> simp <;> ring

/-- For drags no longer than the 6-unit cap, the impulse is just five
times the drag vector. -/
theorem specImpulse_of_le {d : Vec3} {L : ℝ} (hL : length d = L) (h0 : L ≠ 0)
    (hle : L ≤ 6) : specImpulse d = (5 : ℝ) • d := by
  rw [specImpulse, hL, normalize_of_length hL h0, smul_smul_vec, min_eq_left hle]
  have hc : L * 5 * (1 / L) = 5 := by field_simp
  rw [hc]

/-- Packaged concrete evaluation of `integrate` in the moving,
no-wall-clamp case. -/
theorem integrate_eval {f d : ℝ} {p v : Vec3} {L l : ℝ} {w q : Vec3}
    (hL : length v = L) (h0 : L ≠ 0) (hg : lengthSq v > 1e-6)
    (hmax : max 0 (L - f * d) = l)
    (hw : (l / L) • v = w) (hq : p + d • w = q)
    (hx1 : ¬q.x < -COURSE_LIMIT) (hx2 : ¬q.x > COURSE_LIMIT)
    (hz1 : ¬q.z < -COURSE_LIMIT) (hz2 : ¬q.z > COURSE_LIMIT) :
    integrate f d p v = (q, w) := by
  have hvs : velStep f d v = w := by
    rw [velStep_eval hL h0 hg hmax, hw]
  have h := integrate_noClamp hg (by rw [hvs, hq]; exact hx1) (by rw [hvs, hq]; exact hx2)
    (by rw [hvs, hq]; exact hz1) (by rw [hvs, hq]; exact hz2)
  rw [h, hvs, hq]

/-- Claim C1: when an active sink's elapsed time reaches the 1.2 s total,
the ball is snapped exactly to `endPosition`, the scale exactly to 0.3,
and the completion callback fires exactly once on that frame; from the
resulting latched state no later frame ever fires it again — whatever the
physics does to the ball, including oscillating near the hole threshold —
until an external reset clears the latch; from a reset state at most one
further invocation is possible over any frame sequence, and a concrete
two-frame run (shoot from spawn into the level-1 hole, then let the sink
finish) achieves exactly one. -/
theorem holeSink_completion_once :
    (∀ phys : ℝ → Vec3 → Vec3 → Vec3 × Vec3, ∀ hole : Vec3, ∀ dt : ℝ, ∀ s : GameState,
      s.sinking.active = true → 1.2 ≤ s.sinking.t + dt →
      (frameStep phys hole dt s).ballPos = s.sinking.endPos ∧
      (frameStep phys hole dt s).ballScale = 0.3 ∧
      (frameStep phys hole dt s).completeCount = s.completeCount + 1 ∧
      (frameStep phys hole dt s).sinking.active = false ∧
      (frameStep phys hole dt s).holeTriggered = s.holeTriggered) ∧
    (∀ phys : ℝ → Vec3 → Vec3 → Vec3 × Vec3, ∀ hole : Vec3, ∀ dts : List ℝ,
      ∀ s : GameState, s.holeTriggered = true → s.sinking.active = false →
      (runFrames phys hole dts s).completeCount = s.completeCount ∧
      (runFrames phys hole dts s).holeTriggered = true ∧
      (runFrames phys hole dts s).sinking.active = false) ∧
    (∀ phys : ℝ → Vec3 → Vec3 → Vec3 × Vec3, ∀ hole : Vec3, ∀ dts : List ℝ,
      ∀ s : GameState,
      (runFrames phys hole dts (resetState s)).completeCount ≤ s.completeCount + 1) ∧
    (∀ s : GameState, s.completeCount = 0 →
      (runFrames level1Phys holePos1 [1, 0.3]
        (applyRelease ⟨0.3, 0, -0.2⟩ ⟨-0.9, 0, 0.7⟩ (resetState s))).completeCount = 1) := by
  refine ⟨?_, ?_, ?_, ?_⟩
  · intro phys hole dt s ha ht
    rw [frameStep_complete_eval phys hole dt s ha ht]
    exact ⟨rfl, rfl, rfl, rfl, rfl⟩
  · intro phys hole dts s h1 h2
    exact runFrames_latched phys hole dts s h1 h2
  · intro phys hole dts s
    have hInv : SinkInv (resetState s) := by
      intro h
      exact absurd h (by simp [resetState])
    obtain ⟨hphi, -⟩ := runFrames_phi phys hole dts (resetState s) hInv
    have h1 : phi (resetState s) = s.completeCount + 1 := by
      simp [phi, resetState]
    calc (runFrames phys hole dts (resetState s)).completeCount
        ≤ phi (runFrames phys hole dts (resetState s)) := completeCount_le_phi _
      _ = s.completeCount + 1 := by rw [hphi, h1]
  · intro s h0
    have hrel : releaseVelocity ⟨0.3, 0, -0.2⟩ ⟨-0.9, 0, 0.7⟩ ⟨0, 0, 0⟩ = ⟨6, 0, -4.5⟩ := by
      rw [releaseVelocity_eq]
      have hsub : (⟨0.3, 0, -0.2⟩ : Vec3) - ⟨-0.9, 0, 0.7⟩ = ⟨1.2, 0, -0.9⟩ := by
        ext <;> simp <;> norm_num
      rw [hsub, specImpulse_of_le (L := 1.5)
        (length_eq_of_sq (by norm_num) (by norm_num [lengthSq])) (by norm_num) (by norm_num)]
      ext <;> simp <;> norm_num
    have hvel : (applyRelease ⟨0.3, 0, -0.2⟩ ⟨-0.9, 0, 0.7⟩ (resetState s)).vel =
        ⟨6, 0, -4.5⟩ := hrel
    have hpos : (applyRelease ⟨0.3, 0, -0.2⟩ ⟨-0.9, 0, 0.7⟩ (resetState s)).ballPos =
        ⟨0, 0.6, 0⟩ := by
      show (⟨0, BALL_RADIUS, 0⟩ : Vec3) = ⟨0, 0.6, 0⟩
      ext <;> simp [BALL_RADIUS]
    have hphys : level1Phys 1
        (applyRelease ⟨0.3, 0, -0.2⟩ ⟨-0.9, 0, 0.7⟩ (resetState s)).ballPos
        (applyRelease ⟨0.3, 0, -0.2⟩ ⟨-0.9, 0, 0.7⟩ (resetState s)).vel =
        (⟨4.8, 0.6, -3.6⟩, ⟨4.8, 0, -3.6⟩) := by
      rw [hpos, hvel, level1Phys, frictionAt_of_ne (by norm_num)]
      exact integrate_eval (L := 7.5) (l := 6)
        (length_eq_of_sq (by norm_num) (by norm_num [lengthSq]))
        (by norm_num) (by norm_num [lengthSq]) (by norm_num)
        (by ext <;> simp <;> norm_num) (by ext <;> simp <;> norm_num)
        (by simp [COURSE_LIMIT_eq]; norm_num) (by simp [COURSE_LIMIT_eq]; norm_num)
        (by simp [COURSE_LIMIT_eq]; norm_num) (by simp [COURSE_LIMIT_eq]; norm_num)
    have hdist : dist3 (level1Phys 1
        (applyRelease ⟨0.3, 0, -0.2⟩ ⟨-0.9, 0, 0.7⟩ (resetState s)).ballPos
        (applyRelease ⟨0.3, 0, -0.2⟩ ⟨-0.9, 0, 0.7⟩ (resetState s)).vel).1 holePos1 <
        HOLE_RADIUS := by
      rw [hphys, holePos1, HOLE_RADIUS_eq]
      exact dist3_lt (by norm_num) (by norm_num [lengthSq])
    have hnc : ¬(1 : ℝ) ≤ min 1 ((0 + 1) / 1.2) := by
      rw [min_eq_right (by norm_num)]
      norm_num
    have hstep1 := frameStep_trigger_eval level1Phys holePos1 1
      (applyRelease ⟨0.3, 0, -0.2⟩ ⟨-0.9, 0, 0.7⟩ (resetState s))
      rfl rfl rfl hdist hnc
    have hrun : runFrames level1Phys holePos1 [1, 0.3]
        (applyRelease ⟨0.3, 0, -0.2⟩ ⟨-0.9, 0, 0.7⟩ (resetState s)) =
        frameStep level1Phys holePos1 0.3 (frameStep level1Phys holePos1 1
          (applyRelease ⟨0.3, 0, -0.2⟩ ⟨-0.9, 0, 0.7⟩ (resetState s))) := rfl
    rw [hrun, hstep1, frameStep_complete_eval _ _ _ _ rfl (by norm_num)]
    show s.completeCount + 1 = 1
    rw [h0]

/-- Witness for `holeSink_completion_once` at concrete states: a sink at
`t = 1` completing with `dt = 0.3`; a latched post-completion state run
for one more frame; a reset state; and the concrete two-frame hole-in-one
run. -/
theorem holeSink_completion_once_witness :
    ((⟨⟨4.9, 0.1, -3⟩, 0.65, ⟨0, 0, 0⟩, ⟨true, 1, ⟨4.8, 0.6, -3.6⟩, ⟨5, -0.5, -3⟩⟩,
        true, false, 0⟩ : GameState).sinking.active = true ∧
      (1.2 : ℝ) ≤ (⟨⟨4.9, 0.1, -3⟩, 0.65, ⟨0, 0, 0⟩,
        ⟨true, 1, ⟨4.8, 0.6, -3.6⟩, ⟨5, -0.5, -3⟩⟩,
        true, false, 0⟩ : GameState).sinking.t + 0.3 ∧
      (frameStep level1Phys holePos1 0.3
        ⟨⟨4.9, 0.1, -3⟩, 0.65, ⟨0, 0, 0⟩, ⟨true, 1, ⟨4.8, 0.6, -3.6⟩, ⟨5, -0.5, -3⟩⟩,
          true, false, 0⟩).ballPos = ⟨5, -0.5, -3⟩ ∧
      (frameStep level1Phys holePos1 0.3
        ⟨⟨4.9, 0.1, -3⟩, 0.65, ⟨0, 0, 0⟩, ⟨true, 1, ⟨4.8, 0.6, -3.6⟩, ⟨5, -0.5, -3⟩⟩,
          true, false, 0⟩).ballScale = 0.3 ∧
      (frameStep level1Phys holePos1 0.3
        ⟨⟨4.9, 0.1, -3⟩, 0.65, ⟨0, 0, 0⟩, ⟨true, 1, ⟨4.8, 0.6, -3.6⟩, ⟨5, -0.5, -3⟩⟩,
          true, false, 0⟩).completeCount = 1) ∧
    ((runFrames level1Phys holePos1 [0.5]
        ⟨⟨5, -0.5, -3⟩, 0.3, ⟨0, 0, 0⟩, ⟨false, 1.3, ⟨4.8, 0.6, -3.6⟩, ⟨5, -0.5, -3⟩⟩,
          true, false, 1⟩).completeCount = 1 ∧
      (runFrames level1Phys holePos1 [0.5]
        ⟨⟨5, -0.5, -3⟩, 0.3, ⟨0, 0, 0⟩, ⟨false, 1.3, ⟨4.8, 0.6, -3.6⟩, ⟨5, -0.5, -3⟩⟩,
          true, false, 1⟩).holeTriggered = true) ∧
    ((runFrames level1Phys holePos1 [0.7]
        (resetState ⟨⟨5, -0.5, -3⟩, 0.3, ⟨0, 0, 0⟩,
          ⟨false, 1.3, ⟨4.8, 0.6, -3.6⟩, ⟨5, -0.5, -3⟩⟩,
          true, false, 1⟩)).completeCount ≤ 2) ∧
    (runFrames level1Phys holePos1 [1, 0.3]
      (applyRelease ⟨0.3, 0, -0.2⟩ ⟨-0.9, 0, 0.7⟩
        (resetState ⟨⟨0, 0.6, 0⟩, 1, ⟨0, 0, 0⟩, ⟨false, 0, ⟨0, 0, 0⟩, ⟨0, 0, 0⟩⟩,
          false, false, 0⟩))).completeCount = 1 := by
  obtain ⟨hc1, hc2, hc3, hc4⟩ := holeSink_completion_once
  refine ⟨⟨rfl, by norm_num, ?_, ?_, ?_⟩, ?_, ?_, ?_⟩
  · exact (hc1 level1Phys holePos1 0.3 _ rfl (by norm_num)).1
  · exact (hc1 level1Phys holePos1 0.3 _ rfl (by norm_num)).2.1
  · exact (hc1 level1Phys holePos1 0.3 _ rfl (by norm_num)).2.2.1
  · exact ⟨(hc2 level1Phys holePos1 [0.5] _ rfl rfl).1,
      (hc2 level1Phys holePos1 [0.5] _ rfl rfl).2.1⟩
  · exact hc3 level1Phys holePos1 [0.7] _
  · exact hc4 _ rfl

/-! ## Claim C9: aim input during a sink -/

/-- Claim C9, counterexample: from a state with an active sink and
velocity frozen at zero, a completed aim gesture (drag `(3,0,4)`) DOES
change the velocity — `onPointerUp` adds its impulse unconditionally,
with no sink guard — and after the sink completes (before any reset)
that velocity moves the ball out of the hole: two frames after the
release the ball is no longer at `endPosition`, whereas without the
gesture it stays there. -/
theorem sink_aim_input_counterexample :
    (applyRelease ⟨3, 0, 4⟩ ⟨0, 0, 0⟩
      ⟨⟨4.9, 0.1, -3⟩, 0.65, ⟨0, 0, 0⟩, ⟨true, 0.6, ⟨4.8, 0.6, -3.6⟩, ⟨5, -0.5, -3⟩⟩,
        true, false, 0⟩).vel = ⟨15, 0, 20⟩ ∧
    (⟨15, 0, 20⟩ : Vec3) ≠ ⟨0, 0, 0⟩ ∧
    (runFrames level1Phys holePos1 [0.7, 0.1]
      (applyRelease ⟨3, 0, 4⟩ ⟨0, 0, 0⟩
        ⟨⟨4.9, 0.1, -3⟩, 0.65, ⟨0, 0, 0⟩, ⟨true, 0.6, ⟨4.8, 0.6, -3.6⟩, ⟨5, -0.5, -3⟩⟩,
          true, false, 0⟩)).ballPos = ⟨6.491, -0.5, -1.012⟩ ∧
    (⟨6.491, -0.5, -1.012⟩ : Vec3) ≠ ⟨5, -0.5, -3⟩ ∧
    (runFrames level1Phys holePos1 [0.7, 0.1]
      ⟨⟨4.9, 0.1, -3⟩, 0.65, ⟨0, 0, 0⟩, ⟨true, 0.6, ⟨4.8, 0.6, -3.6⟩, ⟨5, -0.5, -3⟩⟩,
        true, false, 0⟩).ballPos = ⟨5, -0.5, -3⟩ := by
  have hrel : releaseVelocity ⟨3, 0, 4⟩ ⟨0, 0, 0⟩ ⟨0, 0, 0⟩ = ⟨15, 0, 20⟩ := by
    rw [releaseVelocity_eq]
    have hsub : (⟨3, 0, 4⟩ : Vec3) - ⟨0, 0, 0⟩ = ⟨3, 0, 4⟩ := by
      ext <;> simp
    rw [hsub, specImpulse_of_le (L := 5)
      (length_eq_of_sq (by norm_num) (by norm_num [lengthSq])) (by norm_num) (by norm_num)]
    ext <;> simp <;> norm_num
  refine ⟨hrel, ?_, ?_, ?_, ?_⟩
  · intro h
    have := congrArg Vec3.x h
    norm_num at this
  · have h1 := frameStep_complete_eval level1Phys holePos1 0.7
      (applyRelease ⟨3, 0, 4⟩ ⟨0, 0, 0⟩
        ⟨⟨4.9, 0.1, -3⟩, 0.65, ⟨0, 0, 0⟩, ⟨true, 0.6, ⟨4.8, 0.6, -3.6⟩, ⟨5, -0.5, -3⟩⟩,
          true, false, 0⟩) rfl (by norm_num [applyRelease])
    have hrun : runFrames level1Phys holePos1 [0.7, 0.1]
        (applyRelease ⟨3, 0, 4⟩ ⟨0, 0, 0⟩
          ⟨⟨4.9, 0.1, -3⟩, 0.65, ⟨0, 0, 0⟩, ⟨true, 0.6, ⟨4.8, 0.6, -3.6⟩, ⟨5, -0.5, -3⟩⟩,
            true, false, 0⟩) =
        frameStep level1Phys holePos1 0.1 (frameStep level1Phys holePos1 0.7
          (applyRelease ⟨3, 0, 4⟩ ⟨0, 0, 0⟩
            ⟨⟨4.9, 0.1, -3⟩, 0.65, ⟨0, 0, 0⟩, ⟨true, 0.6, ⟨4.8, 0.6, -3.6⟩, ⟨5, -0.5, -3⟩⟩,
              true, false, 0⟩)) := rfl
    rw [hrun, h1, frameStep_latched rfl rfl, physPhase_not_active rfl]
    show (level1Phys 0.1 ⟨5, -0.5, -3⟩ (releaseVelocity ⟨3, 0, 4⟩ ⟨0, 0, 0⟩ ⟨0, 0, 0⟩)).1 =
      ⟨6.491, -0.5, -1.012⟩
    rw [hrel, level1Phys, frictionAt_of_ne (by norm_num)]
    have := integrate_eval (L := 25) (l := 24.85) (f := 1.5) (d := 0.1)
      (p := ⟨5, -0.5, -3⟩) (v := ⟨15, 0, 20⟩) (w := ⟨14.91, 0, 19.88⟩)
      (q := ⟨6.491, -0.5, -1.012⟩)
      (length_eq_of_sq (by norm_num) (by norm_num [lengthSq]))
      (by norm_num) (by norm_num [lengthSq]) (by norm_num)
      (by ext <;> simp <;> norm_num) (by ext <;> simp <;> norm_num)
      (by simp [COURSE_LIMIT_eq]; norm_num) (by simp [COURSE_LIMIT_eq]; norm_num)
      (by simp [COURSE_LIMIT_eq]; norm_num) (by simp [COURSE_LIMIT_eq]; norm_num)
    rw [this]
  · intro h
    have := congrArg Vec3.x h
    norm_num at this
  · have h1 := frameStep_complete_eval level1Phys holePos1 0.7
      ⟨⟨4.9, 0.1, -3⟩, 0.65, ⟨0, 0, 0⟩, ⟨true, 0.6, ⟨4.8, 0.6, -3.6⟩, ⟨5, -0.5, -3⟩⟩,
        true, false, 0⟩ rfl (by norm_num)
    have hrun : runFrames level1Phys holePos1 [0.7, 0.1]
        (⟨⟨4.9, 0.1, -3⟩, 0.65, ⟨0, 0, 0⟩, ⟨true, 0.6, ⟨4.8, 0.6, -3.6⟩, ⟨5, -0.5, -3⟩⟩,
          true, false, 0⟩ : GameState) =
        frameStep level1Phys holePos1 0.1 (frameStep level1Phys holePos1 0.7
          ⟨⟨4.9, 0.1, -3⟩, 0.65, ⟨0, 0, 0⟩, ⟨true, 0.6, ⟨4.8, 0.6, -3.6⟩, ⟨5, -0.5, -3⟩⟩,
            true, false, 0⟩) := rfl
    rw [hrun, h1, frameStep_latched rfl rfl, physPhase_not_active rfl]
    show (level1Phys 0.1 ⟨5, -0.5, -3⟩ ⟨0, 0, 0⟩).1 = ⟨5, -0.5, -3⟩
    rw [level1Phys, frictionAt_of_ne (by norm_num),
      integrate_skip (by norm_num [lengthSq])]

theorem complete_cond {t dt : ℝ} (hc : 1 ≤ min 1 ((t + dt) / 1.2)) : 1.2 ≤ t + dt := by
  have := (le_min_iff.mp hc).2
  rw [le_div_iff₀ (by norm_num)] at this
  linarith

/-- Claim C9, amended: while a sink is active the frame's ball position,
scale, sink record and callback count do not depend on the velocity at
all (physics is skipped, the lerp drives the ball), so a mid-sink shot
cannot disturb the sink itself; but `onPointerUp` is not gated on the
sink: it still adds its impulse to the velocity (touching nothing else),
and that velocity takes effect once the sink completes, before any
reset. -/
theorem sink_aim_isolation :
    (∀ phys : ℝ → Vec3 → Vec3 → Vec3 × Vec3, ∀ hole : Vec3, ∀ dt : ℝ,
      ∀ s : GameState, ∀ v' : Vec3, s.sinking.active = true →
      (frameStep phys hole dt { s with vel := v' }).ballPos =
        (frameStep phys hole dt s).ballPos ∧
      (frameStep phys hole dt { s with vel := v' }).ballScale =
        (frameStep phys hole dt s).ballScale ∧
      (frameStep phys hole dt { s with vel := v' }).completeCount =
        (frameStep phys hole dt s).completeCount ∧
      (frameStep phys hole dt { s with vel := v' }).sinking =
        (frameStep phys hole dt s).sinking) ∧
    (∀ dragStart release : Vec3, ∀ s : GameState,
      (applyRelease dragStart release s).vel =
        s.vel + specImpulse (dragStart - release) ∧
      (applyRelease dragStart release s).ballPos = s.ballPos ∧
      (applyRelease dragStart release s).ballScale = s.ballScale ∧
      (applyRelease dragStart release s).sinking = s.sinking ∧
      (applyRelease dragStart release s).holeTriggered = s.holeTriggered ∧
      (applyRelease dragStart release s).completeCount = s.completeCount) := by
  constructor
  · intro phys hole dt s v' ha
    have ha' : ({ s with vel := v' } : GameState).sinking.active = true := ha
    by_cases hc : 1 ≤ min 1 ((s.sinking.t + dt) / 1.2)
    · have ht := complete_cond hc
      rw [frameStep, frameStep, physPhase_skip ha', physPhase_skip ha,
        detectPhase_activeSkip ha', detectPhase_activeSkip ha,
        sinkPhase_complete ha' ht, sinkPhase_complete ha ht]
      exact ⟨rfl, rfl, rfl, rfl⟩
    · rw [frameStep, frameStep, physPhase_skip ha', physPhase_skip ha,
        detectPhase_activeSkip ha', detectPhase_activeSkip ha,
        sinkPhase_progress ha' hc, sinkPhase_progress ha hc]
      exact ⟨rfl, rfl, rfl, rfl⟩
  · intro dragStart release s
    exact ⟨releaseVelocity_eq dragStart release s.vel, rfl, rfl, rfl, rfl, rfl⟩

/-- Witness for `sink_aim_isolation` at a concrete mid-sink state and a
concrete release. -/
theorem sink_aim_isolation_witness :
    ((⟨⟨4.9, 0.1, -3⟩, 0.65, ⟨0, 0, 0⟩, ⟨true, 0.6, ⟨4.8, 0.6, -3.6⟩, ⟨5, -0.5, -3⟩⟩,
        true, false, 0⟩ : GameState).sinking.active = true ∧
      (frameStep level1Phys holePos1 0.2
        { (⟨⟨4.9, 0.1, -3⟩, 0.65, ⟨0, 0, 0⟩,
            ⟨true, 0.6, ⟨4.8, 0.6, -3.6⟩, ⟨5, -0.5, -3⟩⟩,
            true, false, 0⟩ : GameState) with vel := ⟨9, 9, 9⟩ }).ballPos =
        (frameStep level1Phys holePos1 0.2
          ⟨⟨4.9, 0.1, -3⟩, 0.65, ⟨0, 0, 0⟩, ⟨true, 0.6, ⟨4.8, 0.6, -3.6⟩, ⟨5, -0.5, -3⟩⟩,
            true, false, 0⟩).ballPos ∧
      (frameStep level1Phys holePos1 0.2
        { (⟨⟨4.9, 0.1, -3⟩, 0.65, ⟨0, 0, 0⟩,
            ⟨true, 0.6, ⟨4.8, 0.6, -3.6⟩, ⟨5, -0.5, -3⟩⟩,
            true, false, 0⟩ : GameState) with vel := ⟨9, 9, 9⟩ }).completeCount =
        (frameStep level1Phys holePos1 0.2
          ⟨⟨4.9, 0.1, -3⟩, 0.65, ⟨0, 0, 0⟩, ⟨true, 0.6, ⟨4.8, 0.6, -3.6⟩, ⟨5, -0.5, -3⟩⟩,
            true, false, 0⟩).completeCount) ∧
    (applyRelease ⟨3, 0, 4⟩ ⟨0, 0, 0⟩
        ⟨⟨4.9, 0.1, -3⟩, 0.65, ⟨0, 0, 0⟩, ⟨true, 0.6, ⟨4.8, 0.6, -3.6⟩, ⟨5, -0.5, -3⟩⟩,
          true, false, 0⟩).vel =
      (⟨0, 0, 0⟩ : Vec3) + specImpulse ((⟨3, 0, 4⟩ : Vec3) - ⟨0, 0, 0⟩) := by
  obtain ⟨h1, h2⟩ := sink_aim_isolation
  refine ⟨⟨rfl, ?_, ?_⟩, ?_⟩
  · exact (h1 level1Phys holePos1 0.2 _ ⟨9, 9, 9⟩ rfl).1
  · exact (h1 level1Phys holePos1 0.2 _ ⟨9, 9, 9⟩ rfl).2.2.1
  · exact (h2 ⟨3, 0, 4⟩ ⟨0, 0, 0⟩ _).1

end MiniGolf
